import Mathlib

/-!
# Verification of the lagertha-vm execution engine core

A shallow embedding, in Lean 4, of the parts of the `lagertha-vm` JVM
implementation (crates `runtime` and `vm`) that the verified claims are
about:

* the tagged operand-stack `Value` and the interpreter's arithmetic,
  division and `checkcast` handlers (`src/runtime/src/interpreter/handlers.rs`);
* the exception-dispatch algorithm (`Interpreter::find_exception_handler`);
* class initialization (`Interpreter::ensure_initialized`);
* instance-field layout (`InstanceClass::link_fields`);
* the bump-allocated heap, its typed field accessors and the compact
  string encoding (`src/runtime/src/heap/mod.rs`);
* the runtime constant pool accessors (`src/runtime/src/rt/constant_pool/mod.rs`).

Modelling conventions:

* Rust machine integers (`i32`, `i64`, `usize`, `u16`, ...) are embedded as
  `Int` / `Nat` with explicit reduction modulo `2^w` where the source relies
  on two's-complement wrapping.
* The sources are compiled as a release binary; accordingly the plain
  `+`, `-`, unary `-` operators on `i32`/`i64` are embedded with the wrapping
  semantics Rust defines when overflow checks are disabled.  The `/` and `%`
  operators on machine integers, by contrast, panic on a zero divisor and on
  overflow (`MIN / -1`, `MIN % -1`) in *every* build profile, which is why
  the sources use `wrapping_div` in `handle_idiv`/`handle_ldiv`; a panic is
  embedded as the distinguished `RustResult.abort` outcome.
* `f32`/`f64` payloads are carried as raw IEEE-754 bit patterns (`Nat`):
  no verified claim depends on float arithmetic, only on moving the bits.
* Fallible Rust code (`Result<T, JvmError>`) becomes `Except JvmError`.
-/

namespace LagerthaVM

/-! ## Two's-complement helpers -/

/-- Reduce an integer into the signed 32-bit range `[-2^31, 2^31)`:
the value a two's-complement `i32` holding the same low 32 bits denotes. -/
def wrap32 (i : Int) : Int := (i + 2 ^ 31) % 2 ^ 32 - 2 ^ 31

/-- Reduce an integer into the signed 64-bit range `[-2^63, 2^63)`. -/
def wrap64 (i : Int) : Int := (i + 2 ^ 63) % 2 ^ 64 - 2 ^ 63

/-- Smallest `i32` value. -/
def i32Min : Int := -(2 ^ 31)

/-- Largest `i32` value. -/
def i32Max : Int := 2 ^ 31 - 1

/-- Smallest `i64` value. -/
def i64Min : Int := -(2 ^ 63)

/-! ## Errors (src/runtime/src/error.rs)

Only the `JvmError` variants and exception kinds that the verified code
paths construct are embedded. -/

/-- `JavaExceptionKind` (src/runtime/src/error.rs). -/
inductive JavaExceptionKind where
  | arithmeticException
  | arrayIndexOutOfBoundsException
  | negativeArraySizeException
  | nullPointerException
  | noSuchMethodError
  | unsatisfiedLinkError
  | incompatibleClassChangeError
  | classFormatError
  deriving DecidableEq, Repr

/-- `RuntimeConstantType` (src/runtime/src/rt/constant_pool/mod.rs): the tag
kinds a runtime-constant-pool entry can have / an accessor can expect. -/
inductive RuntimeConstantType where
  | unused
  | utf8
  | integer
  | float
  | long
  | double
  | classKind
  | stringKind
  | methodKind
  | fieldKind
  | invokeDynamic
  | interfaceMethod
  | nameAndType
  | methodNameAndType
  | fieldNameAndType
  | methodType
  | methodHandle
  deriving DecidableEq, Repr

/-- `ExceptionMessage` (src/runtime/src/error.rs), restricted to the variants
the embedded code constructs: a resolved string, or the structured payload of
a constant-pool tag mismatch (`IncompatibleClassChangeRuntimePool`). -/
inductive ExceptionMessage where
  | resolved (s : String)
  | incompatibleClassChangeRuntimePool
      (poolIdx : Nat) (expected actual : RuntimeConstantType)
  deriving DecidableEq, Repr

/-- `JavaExceptionFromJvm` (src/runtime/src/error.rs): a VM-synthesized Java
exception, before it is materialized as a heap object. -/
structure JavaExceptionFromJvm where
  kind : JavaExceptionKind
  message : Option ExceptionMessage
  deriving DecidableEq, Repr

/-- `JvmError` (src/runtime/src/error.rs), restricted to the variants the
embedded code paths construct or the claims mention.  `outOfMemory` exists in
the source enum (`JvmError::OutOfMemory`) and is included so that statements
can compare the error `Heap::alloc_raw` actually returns against it. -/
inductive JvmError where
  | operandStackIsEmpty
  | outOfMemory
  | unexpectedType (s : String)
  | javaExceptionThrown (heapRef : Nat)
  | todo (s : String)
  | javaException (e : JavaExceptionFromJvm)
  deriving DecidableEq, Repr

/-- `throw_exception!(Kind, "msg")` / `build_exception!` with a plain message
(src/runtime/src/macros, used throughout the runtime crate). -/
def javaErr (k : JavaExceptionKind) (msg : String) : JvmError :=
  .javaException ⟨k, some (.resolved msg)⟩

/-- `build_exception!` with the structured constant-pool-mismatch payload
(`JavaExceptionFromJvm::with_runtime_pool_incompatible_class_change`). -/
def poolMismatchErr (k : JavaExceptionKind) (poolIdx : Nat)
    (expected actual : RuntimeConstantType) : JvmError :=
  .javaException
    ⟨k, some (.incompatibleClassChangeRuntimePool poolIdx expected actual)⟩

/-! ## Outcomes of running embedded Rust code

A Rust function can return `Ok`, return `Err`, or panic (which terminates
the VM process); the three are kept apart. -/

/-- Outcome of an embedded Rust computation: success, a `JvmError`, or a
process-terminating panic (e.g. `%` overflow on machine integers). -/
inductive RustResult (α : Type) where
  | ok (a : α)
  | err (e : JvmError)
  | abort (msg : String)
  deriving DecidableEq, Repr

/-! ## Values and the operand stack

`Value` is from src/runtime/src/vm/mod.rs (§3.4 of the spec).  The frame
stack itself lives in `src/runtime/src/vm/stack.rs`, which is not among the
provided sources; its operand-stack operations (`push_operand`,
`pop_operand`, `pop_int_val`, `pop_long_val`, `pop_obj_val`) are modelled
from the spec. -/

/-- Tagged stack/local cell (§3.4): `Integer(i32)`, `Long(i64)`,
`Float(f32)`, `Double(f64)`, `Ref(HeapRef)`, `Null`.  Float and double carry
their raw bit patterns. -/
inductive Value where
  | integer (i : Int)
  | long (l : Int)
  | float (bits : Nat)
  | double (bits : Nat)
  | ref (r : Nat)
  | null
  deriving DecidableEq, Repr

/-- Modelled from the spec: the operand stack of the current Java frame
(§4.5.1), topmost value first.  `src/runtime/src/vm/stack.rs` is not among
the provided sources. -/
abbrev OperandStack := List Value

/-- Modelled from the spec: `push_operand` appends a cell on top of the
current frame's operand stack. -/
def pushOperand (v : Value) (s : OperandStack) : OperandStack := v :: s

/-- Modelled from the spec: `pop_operand` removes and returns the topmost
cell; an empty operand stack is an error. -/
def popOperand (s : OperandStack) : Except JvmError (Value × OperandStack) :=
  match s with
  | [] => .error .operandStackIsEmpty
  | v :: rest => .ok (v, rest)

/-- Modelled from the spec: `pop_int_val` pops the topmost cell and requires
it to be an `Integer`. -/
def popIntVal (s : OperandStack) : Except JvmError (Int × OperandStack) :=
  match s with
  | [] => .error .operandStackIsEmpty
  | .integer i :: rest => .ok (i, rest)
  | _ :: _ => .error (.unexpectedType "expected Integer")

/-- Modelled from the spec: `pop_long_val` pops the topmost cell and requires
it to be a `Long`. -/
def popLongVal (s : OperandStack) : Except JvmError (Int × OperandStack) :=
  match s with
  | [] => .error .operandStackIsEmpty
  | .long l :: rest => .ok (l, rest)
  | _ :: _ => .error (.unexpectedType "expected Long")

/-! ## Integer and long arithmetic handlers
(src/runtime/src/interpreter/handlers.rs)

Each handler acts on the operand stack of the current frame.  The embedding
threads the stack explicitly. -/

/-- `handle_iadd`: pops `value2` then `value1`, pushes
`value1.wrapping_add(value2)`. -/
def handleIadd (s : OperandStack) : RustResult OperandStack :=
  match popIntVal s with
  | .error e => .err e
  | .ok (v2, s1) =>
    match popIntVal s1 with
    | .error e => .err e
    | .ok (v1, s2) => .ok (pushOperand (.integer (wrap32 (v1 + v2))) s2)

/-- `handle_isub`: pops `v2` then `v1`, pushes `v1 - v2` (plain `i32`
subtraction; wraps in the release profile, see the module conventions). -/
def handleIsub (s : OperandStack) : RustResult OperandStack :=
  match popIntVal s with
  | .error e => .err e
  | .ok (v2, s1) =>
    match popIntVal s1 with
    | .error e => .err e
    | .ok (v1, s2) => .ok (pushOperand (.integer (wrap32 (v1 - v2))) s2)

/-- `handle_imul`: pops `v2` then `v1`, pushes `v1.wrapping_mul(v2)`. -/
def handleImul (s : OperandStack) : RustResult OperandStack :=
  match popIntVal s with
  | .error e => .err e
  | .ok (v2, s1) =>
    match popIntVal s1 with
    | .error e => .err e
    | .ok (v1, s2) => .ok (pushOperand (.integer (wrap32 (v1 * v2))) s2)

/-- `handle_ineg`: pops `v`, pushes `-v` (plain `i32` negation; wraps in the
release profile). -/
def handleIneg (s : OperandStack) : RustResult OperandStack :=
  match popIntVal s with
  | .error e => .err e
  | .ok (v, s1) => .ok (pushOperand (.integer (wrap32 (-v))) s1)

/-- `handle_ladd`: pops `v2` then `v1`, pushes `v1.wrapping_add(v2)`. -/
def handleLadd (s : OperandStack) : RustResult OperandStack :=
  match popLongVal s with
  | .error e => .err e
  | .ok (v2, s1) =>
    match popLongVal s1 with
    | .error e => .err e
    | .ok (v1, s2) => .ok (pushOperand (.long (wrap64 (v1 + v2))) s2)

/-- `handle_lsub`: pops `v2` then `v1`, pushes `v1.wrapping_sub(v2)`. -/
def handleLsub (s : OperandStack) : RustResult OperandStack :=
  match popLongVal s with
  | .error e => .err e
  | .ok (v2, s1) =>
    match popLongVal s1 with
    | .error e => .err e
    | .ok (v1, s2) => .ok (pushOperand (.long (wrap64 (v1 - v2))) s2)

/-- `handle_lmul`: pops `v2` then `v1`, pushes `v1.wrapping_mul(v2)`. -/
def handleLmul (s : OperandStack) : RustResult OperandStack :=
  match popLongVal s with
  | .error e => .err e
  | .ok (v2, s1) =>
    match popLongVal s1 with
    | .error e => .err e
    | .ok (v1, s2) => .ok (pushOperand (.long (wrap64 (v1 * v2))) s2)

/-- Modelled from the spec: `get_local_int_val` reads local `idx` and
requires it to be an `Integer` (stack module not among the sources). -/
def getLocalIntVal (locals : List Value) (idx : Nat) : Except JvmError Int :=
  match locals.getD idx .null with
  | .integer i => .ok i
  | _ => .error (.unexpectedType "expected Integer local")

/-- `handle_iinc`: reads local `idx`, stores `value + const_val` back into
the local (plain `i32` addition; wraps in the release profile).  Locals are
modelled as a list updated in place. -/
def handleIinc (locals : List Value) (idx : Nat) (constVal : Int) :
    RustResult (List Value) :=
  match getLocalIntVal locals idx with
  | .error e => .err e
  | .ok v => .ok (locals.set idx (.integer (wrap32 (v + constVal))))

/-! ## Division and remainder handlers -/

/-- `handle_idiv`: pops `value2` then `value1`; a zero divisor raises
`ArithmeticException("/ by zero")`, otherwise pushes
`value1.wrapping_div(value2)` (`MIN / -1` wraps to `MIN`). -/
def handleIdiv (s : OperandStack) : RustResult OperandStack :=
  match popIntVal s with
  | .error e => .err e
  | .ok (v2, s1) =>
    match popIntVal s1 with
    | .error e => .err e
    | .ok (v1, s2) =>
      if v2 = 0 then .err (javaErr .arithmeticException "/ by zero")
      else .ok (pushOperand (.integer (wrap32 (Int.tdiv v1 v2))) s2)

/-- `handle_irem`: pops `v2` then `v1`; a zero divisor raises
`ArithmeticException("/ by zero")`, otherwise computes `v1 % v2` with the
plain Rust `%` operator, which panics on overflow (`i32::MIN % -1`) in every
build profile. -/
def handleIrem (s : OperandStack) : RustResult OperandStack :=
  match popIntVal s with
  | .error e => .err e
  | .ok (v2, s1) =>
    match popIntVal s1 with
    | .error e => .err e
    | .ok (v1, s2) =>
      if v2 = 0 then .err (javaErr .arithmeticException "/ by zero")
      else if v1 = i32Min ∧ v2 = -1 then
        .abort "attempt to calculate the remainder with overflow"
      else .ok (pushOperand (.integer (Int.tmod v1 v2)) s2)

/-- `handle_ldiv`: long counterpart of `handle_idiv` (uses `wrapping_div`). -/
def handleLdiv (s : OperandStack) : RustResult OperandStack :=
  match popLongVal s with
  | .error e => .err e
  | .ok (v2, s1) =>
    match popLongVal s1 with
    | .error e => .err e
    | .ok (v1, s2) =>
      if v2 = 0 then .err (javaErr .arithmeticException "/ by zero")
      else .ok (pushOperand (.long (wrap64 (Int.tdiv v1 v2))) s2)

/-- `handle_lrem`: pops `v2` then `v1`; a zero divisor raises
`ArithmeticException("/ by zero")`, otherwise computes `v1 % v2` with the
plain Rust `%` operator, which panics on overflow (`i64::MIN % -1`). -/
def handleLrem (s : OperandStack) : RustResult OperandStack :=
  match popLongVal s with
  | .error e => .err e
  | .ok (v2, s1) =>
    match popLongVal s1 with
    | .error e => .err e
    | .ok (v1, s2) =>
      if v2 = 0 then .err (javaErr .arithmeticException "/ by zero")
      else if v1 = i64Min ∧ v2 = -1 then
        .abort "attempt to calculate the remainder with overflow"
      else .ok (pushOperand (.long (Int.tmod v1 v2)) s2)

/-! ## checkcast (src/runtime/src/interpreter/handlers.rs, `handle_checkcast`)

The source is a stub: it pops the operand and pushes it back, performing no
type test whatsoever; the constant-pool index operand of the instruction is
discarded by `interpret_instruction` (`Instruction::Checkcast(_idx)`). -/

/-- `handle_checkcast`: pops the topmost operand and pushes it back
unchanged. -/
def handleCheckcast (s : OperandStack) : RustResult OperandStack :=
  match popOperand s with
  | .error e => .err e
  | .ok (v, s1) => .ok (pushOperand v s1)

/-! ## Properties of the wrapping helpers -/

/-- `wrap32 i` is the unique representative of `i` modulo `2^32` inside the
signed 32-bit range. -/
theorem wrap32_spec (i : Int) :
    (2 ^ 32 : Int) ∣ (wrap32 i - i) ∧ -(2 ^ 31) ≤ wrap32 i ∧ wrap32 i < 2 ^ 31 := by
  unfold wrap32
  refine ⟨⟨-((i + 2 ^ 31) / 2 ^ 32), ?_⟩, ?_, ?_⟩
  · rw [Int.emod_def]; ring
  · have h := Int.emod_nonneg (i + 2 ^ 31) (by norm_num : (2 ^ 32 : Int) ≠ 0)
    omega
  · have h := Int.emod_lt_of_pos (i + 2 ^ 31) (by norm_num : (0 : Int) < 2 ^ 32)
    omega

/-- `wrap64 i` is the unique representative of `i` modulo `2^64` inside the
signed 64-bit range. -/
theorem wrap64_spec (i : Int) :
    (2 ^ 64 : Int) ∣ (wrap64 i - i) ∧ -(2 ^ 63) ≤ wrap64 i ∧ wrap64 i < 2 ^ 63 := by
  unfold wrap64
  refine ⟨⟨-((i + 2 ^ 63) / 2 ^ 64), ?_⟩, ?_, ?_⟩
  · rw [Int.emod_def]; ring
  · have h := Int.emod_nonneg (i + 2 ^ 63) (by norm_num : (2 ^ 64 : Int) ≠ 0)
    omega
  · have h := Int.emod_lt_of_pos (i + 2 ^ 63) (by norm_num : (0 : Int) < 2 ^ 64)
    omega

/-! ## Claim C2 -/

/-- **C2.** The integer and long arithmetic handlers `iadd`, `isub`, `imul`,
`ineg`, `iinc`, `ladd`, `lsub`, `lmul` have two's-complement wrapping
semantics: on any pair of integer (resp. long) operands they succeed and
push the mathematically correct result reduced modulo `2^32` (resp. `2^64`)
into the signed range (`wrap32`/`wrap64`, whose characterizing properties
are `wrap32_spec`/`wrap64_spec`); in particular
`isub(i32::MIN, 1) = i32::MAX` and `ineg(i32::MIN) = i32::MIN`. -/
theorem claim_C2_wrapping_arithmetic :
    (∀ (v1 v2 : Int) (rest : OperandStack),
      handleIadd (.integer v2 :: .integer v1 :: rest)
        = .ok (.integer (wrap32 (v1 + v2)) :: rest)) ∧
    (∀ (v1 v2 : Int) (rest : OperandStack),
      handleIsub (.integer v2 :: .integer v1 :: rest)
        = .ok (.integer (wrap32 (v1 - v2)) :: rest)) ∧
    (∀ (v1 v2 : Int) (rest : OperandStack),
      handleImul (.integer v2 :: .integer v1 :: rest)
        = .ok (.integer (wrap32 (v1 * v2)) :: rest)) ∧
    (∀ (v : Int) (rest : OperandStack),
      handleIneg (.integer v :: rest) = .ok (.integer (wrap32 (-v)) :: rest)) ∧
    (∀ (locals : List Value) (idx : Nat) (c v : Int),
      locals.getD idx .null = .integer v →
      handleIinc locals idx c = .ok (locals.set idx (.integer (wrap32 (v + c))))) ∧
    (∀ (v1 v2 : Int) (rest : OperandStack),
      handleLadd (.long v2 :: .long v1 :: rest)
        = .ok (.long (wrap64 (v1 + v2)) :: rest)) ∧
    (∀ (v1 v2 : Int) (rest : OperandStack),
      handleLsub (.long v2 :: .long v1 :: rest)
        = .ok (.long (wrap64 (v1 - v2)) :: rest)) ∧
    (∀ (v1 v2 : Int) (rest : OperandStack),
      handleLmul (.long v2 :: .long v1 :: rest)
        = .ok (.long (wrap64 (v1 * v2)) :: rest)) ∧
    handleIsub [.integer 1, .integer i32Min] = .ok [.integer i32Max] ∧
    handleIneg [.integer i32Min] = .ok [.integer i32Min] := by
  refine ⟨fun v1 v2 rest => rfl, fun v1 v2 rest => rfl, fun v1 v2 rest => rfl,
    fun v rest => rfl, ?_, fun v1 v2 rest => rfl, fun v1 v2 rest => rfl,
    fun v1 v2 rest => rfl, by decide, by decide⟩
  intro locals idx c v h
  unfold handleIinc getLocalIntVal
  rw [h]

/-- Witness for C2: `iinc` on a concrete one-local frame at the overflow
boundary, `i32::MAX + 1 = i32::MIN`. -/
theorem claim_C2_wrapping_arithmetic_witness :
    handleIinc [Value.integer 2147483647] 0 1
      = .ok [Value.integer (-2147483648)] := by
  have h := claim_C2_wrapping_arithmetic.2.2.2.2.1
      [Value.integer 2147483647] 0 1 2147483647 (by decide)
  rw [h]; decide

/-! ## Claim C8

`handle_idiv` / `handle_ldiv` use `wrapping_div`, so for them the claim
holds in full (including the `MIN / -1` overflow pair, which wraps).
`handle_irem` / `handle_lrem` use the plain `%` operator, which panics on
`MIN % -1` in every Rust build profile — at that non-zero divisor the VM
aborts instead of pushing the remainder `0` that the spec's wrapping
semantics (and the JVM specification) require. -/

/-- **C8.** Evaluation at the failing input, and the surrounding behavior:
`idiv`/`ldiv` raise `ArithmeticException("/ by zero")` exactly on a zero
divisor and otherwise push the wrapped quotient; `irem`/`lrem` raise the
same exception on a zero divisor, but at the non-zero divisor pair
`(i32::MIN, -1)` (resp. `(i64::MIN, -1)`) `irem`/`lrem` abort the process
via a Rust `%`-overflow panic instead of pushing the remainder. -/
theorem claim_C8_div_rem_zero_and_overflow :
    (∀ (v1 v2 : Int) (rest : OperandStack), v2 ≠ 0 →
      handleIdiv (.integer v2 :: .integer v1 :: rest)
        = .ok (.integer (wrap32 (Int.tdiv v1 v2)) :: rest)) ∧
    (∀ (v1 : Int) (rest : OperandStack),
      handleIdiv (.integer 0 :: .integer v1 :: rest)
        = .err (javaErr .arithmeticException "/ by zero")) ∧
    (∀ (v1 : Int) (rest : OperandStack),
      handleIrem (.integer 0 :: .integer v1 :: rest)
        = .err (javaErr .arithmeticException "/ by zero")) ∧
    (∀ (v1 : Int) (rest : OperandStack),
      handleLdiv (.long 0 :: .long v1 :: rest)
        = .err (javaErr .arithmeticException "/ by zero")) ∧
    (∀ (v1 : Int) (rest : OperandStack),
      handleLrem (.long 0 :: .long v1 :: rest)
        = .err (javaErr .arithmeticException "/ by zero")) ∧
    handleIrem [Value.integer (-1), Value.integer i32Min]
      = .abort "attempt to calculate the remainder with overflow" ∧
    handleLrem [Value.long (-1), Value.long i64Min]
      = .abort "attempt to calculate the remainder with overflow" := by
  refine ⟨?_, fun v1 rest => rfl, fun v1 rest => rfl, fun v1 rest => rfl,
    fun v1 rest => rfl, by decide, by decide⟩
  intro v1 v2 rest h
  simp [handleIdiv, popIntVal, pushOperand, h]

/-- Witness for C8: `idiv` at the division-overflow pair
`(i32::MIN, -1)` wraps to `i32::MIN` (the divisor `-1` is non-zero). -/
theorem claim_C8_div_rem_zero_and_overflow_witness :
    handleIdiv [Value.integer (-1), Value.integer i32Min]
      = .ok [Value.integer i32Min] := by
  have h := claim_C8_div_rem_zero_and_overflow.1 i32Min (-1) [] (by decide)
  rw [h]; decide

/-! ## Claim C10 -/

/-- **C10.** `checkcast` performs no type test: on any operand stack with a
topmost value (of any kind, including `Null` and references of arbitrary
class), the handler succeeds and leaves the operand stack exactly as it
was, raising nothing, regardless of the instruction's constant-pool operand
(which `interpret_instruction` discards). -/
theorem claim_C10_checkcast_is_identity :
    ∀ (v : Value) (rest : OperandStack),
      handleCheckcast (v :: rest) = .ok (v :: rest) :=
  fun _ _ => rfl

/-! ## Byte-addressed memory

The heap (src/runtime/src/heap/mod.rs) is a fixed-capacity `mmap`-backed
byte region (zero-initialized by `MAP_ANON`).  It is embedded as a function
from byte addresses to byte values; multi-byte stores and loads are
little-endian, matching the x86-64/AArch64 targets the source assumes
(§6.4 documents the little-endian wire layout). -/

/-- Memory contents: byte value at each address. -/
abbrev Mem := Nat → Nat

/-- Store one byte (an in-range `u8` store truncates to the low 8 bits). -/
def writeByte (m : Mem) (a v : Nat) : Mem :=
  fun x => if x = a then v % 256 else m x

/-- Store a list of bytes at consecutive ascending addresses. -/
def writeBytes (m : Mem) (a : Nat) : List Nat → Mem
  | [] => m
  | b :: bs => writeBytes (writeByte m a b) (a + 1) bs

/-- Load `n` bytes from consecutive ascending addresses. -/
def readBytes (m : Mem) (a : Nat) : Nat → List Nat
  | 0 => []
  | n + 1 => m a :: readBytes m (a + 1) n

/-- Little-endian encoding of a natural number into `w` bytes (the low
`8*w` bits, least-significant byte first). -/
def natToLE : Nat → Nat → List Nat
  | 0, _ => []
  | w + 1, v => v % 256 :: natToLE w (v / 256)

/-- Little-endian decoding of a byte list into a natural number. -/
def leToNat : List Nat → Nat
  | [] => 0
  | b :: bs => b % 256 + 256 * leToNat bs

/-- The low `bits` bits of an integer, as the unsigned value a
two's-complement truncating cast (`as i8` / `as u16` / `as u32` ...)
stores. -/
def truncNat (bits : Nat) (v : Int) : Nat := (v % (2 ^ bits : Nat)).toNat

/-- Reinterpret an unsigned `bits`-wide value as a signed two's-complement
integer (sign extension on load). -/
def toSigned (bits : Nat) (n : Nat) : Int :=
  if n < 2 ^ (bits - 1) then (n : Int) else (n : Int) - 2 ^ bits

/-! ### Memory lemmas -/

theorem writeBytes_out (m : Mem) (a : Nat) (bs : List Nat) (x : Nat)
    (h : x < a ∨ a + bs.length ≤ x) : writeBytes m a bs x = m x := by
  induction bs generalizing m a with
  | nil => rfl
  | cons b bs ih =>
    simp only [List.length_cons] at h
    simp only [writeBytes]
    rw [ih (writeByte m a b) (a + 1) (by omega)]
    simp only [writeByte]
    rw [if_neg (show ¬ x = a by omega)]

theorem readBytes_writeBytes (m : Mem) (a : Nat) (bs : List Nat) :
    readBytes (writeBytes m a bs) a bs.length = bs.map (· % 256) := by
  induction bs generalizing m a with
  | nil => rfl
  | cons b bs ih =>
    simp only [List.length_cons, readBytes, List.map_cons]
    rw [List.cons.injEq]
    refine ⟨?_, ih (writeByte m a b) (a + 1)⟩
    simp only [writeBytes]
    rw [writeBytes_out (writeByte m a b) (a + 1) bs a (by omega)]
    simp [writeByte]

/-- Reading a region strictly below or above a written region sees the old
memory. -/
theorem readBytes_writeBytes_disjoint (m : Mem) (a c : Nat) (bs : List Nat)
    (n : Nat) (h : c + n ≤ a ∨ a + bs.length ≤ c) :
    readBytes (writeBytes m a bs) c n = readBytes m c n := by
  induction n generalizing c with
  | zero => rfl
  | succ n ih =>
    simp only [readBytes]
    rw [List.cons.injEq]
    refine ⟨writeBytes_out m a bs c (by omega), ih (c + 1) (by omega)⟩

theorem readBytes_congr (m m' : Mem) (a n : Nat)
    (h : ∀ x, a ≤ x → x < a + n → m x = m' x) :
    readBytes m a n = readBytes m' a n := by
  induction n generalizing a with
  | zero => rfl
  | succ n ih =>
    simp only [readBytes]
    rw [List.cons.injEq]
    exact ⟨h a le_rfl (by omega), ih (a + 1) (fun x hx hx' => h x (by omega) (by omega))⟩

theorem natToLE_lt (w v : Nat) : ∀ b ∈ natToLE w v, b < 256 := by
  induction w generalizing v with
  | zero => simp [natToLE]
  | succ w ih =>
    intro b hb
    simp only [natToLE, List.mem_cons] at hb
    rcases hb with h | h
    · omega
    · exact ih _ b h

theorem natToLE_map_mod (w v : Nat) :
    (natToLE w v).map (· % 256) = natToLE w v := by
  induction w generalizing v with
  | zero => rfl
  | succ w ih =>
    simp only [natToLE, List.map_cons, ih]
    rw [List.cons.injEq]
    exact ⟨Nat.mod_mod_of_dvd v (dvd_refl 256), rfl⟩

theorem natToLE_length (w v : Nat) : (natToLE w v).length = w := by
  induction w generalizing v with
  | zero => rfl
  | succ w ih => simp [natToLE, ih]

theorem mod_mul_decompose (q r t : Nat) (ht : 0 < t) (hr : r < 256) :
    (256 * q + r) % (256 * t) = 256 * (q % t) + r := by
  conv_lhs => rw [← Nat.div_add_mod q t]
  rw [Nat.mul_add, ← Nat.mul_assoc, Nat.add_assoc, Nat.mul_add_mod]
  have hq : q % t < t := Nat.mod_lt q ht
  exact Nat.mod_eq_of_lt (by omega)

theorem leToNat_natToLE (w v : Nat) : leToNat (natToLE w v) = v % 256 ^ w := by
  induction w generalizing v with
  | zero => simp [natToLE, leToNat, Nat.mod_one]
  | succ w ih =>
    simp only [natToLE, leToNat, ih]
    rw [Nat.mod_mod_of_dvd v (dvd_refl 256), pow_succ']
    conv_rhs => rw [← Nat.div_add_mod v 256]
    rw [mod_mul_decompose (v / 256) (v % 256) (256 ^ w)
      (Nat.pow_pos (by norm_num)) (Nat.mod_lt v (by norm_num))]
    omega

/-- Round trip of the little-endian pair store/load. -/
theorem leToNat_readBytes_writeBytes (m : Mem) (a w v : Nat) :
    leToNat (readBytes (writeBytes m a (natToLE w v)) a w) = v % 256 ^ w := by
  have h := readBytes_writeBytes m a (natToLE w v)
  rw [natToLE_length] at h
  rw [h, natToLE_map_mod, leToNat_natToLE]

/-! ## Allocation types

Modelled from the spec: `AllocationType` lives in the `lagertha_common`
crate, which is not among the provided sources.  §3.2 fixes the byte sizes
(each field aligned to its natural size 1/2/4/8), §4.6 fixes the reference
width at one machine word (8 bytes, `arrayIndexScale`/coder offset).  The
numeric discriminant stored in the array-header tag byte is not observable
by any claim; the enum order below is used, which is injective and fits a
byte. -/

/-- The runtime type tag of a field or array element. -/
inductive AllocationType where
  | boolean
  | byte
  | short
  | char
  | int
  | long
  | float
  | double
  | reference
  deriving DecidableEq, Repr

/-- `AllocationType::byte_size` (modelled from the spec, §3.2/§4.6). -/
def AllocationType.byteSize : AllocationType → Nat
  | .boolean => 1
  | .byte => 1
  | .short => 2
  | .char => 2
  | .int => 4
  | .float => 4
  | .long => 8
  | .double => 8
  | .reference => 8

/-- `AllocationType as u8` (modelled from the spec: any injective
byte-valued discriminant; the concrete values are not observable). -/
def AllocationType.tag : AllocationType → Nat
  | .boolean => 0
  | .byte => 1
  | .short => 2
  | .char => 3
  | .int => 4
  | .long => 5
  | .float => 6
  | .double => 7
  | .reference => 8

/-- `AllocationType::try_from(u8)` (modelled from the spec): partial
inverse of `AllocationType.tag`. -/
def tagToAllocationType (b : Nat) : Option AllocationType :=
  match b with
  | 0 => some .boolean
  | 1 => some .byte
  | 2 => some .short
  | 3 => some .char
  | 4 => some .int
  | 5 => some .long
  | 6 => some .float
  | 7 => some .double
  | 8 => some .reference
  | _ => none

/-! ## The heap (src/runtime/src/heap/mod.rs) -/

/-- `ObjectHeader::SIZE` (`size_of::<ObjectHeader>()`, asserted to be 16 in
`Heap::new`). -/
def objectHeaderSize : Nat := 16

/-- `Heap::ARRAY_LENGTH_OFFSET`. -/
def arrayLengthOffset : Nat := 0

/-- `Heap::ARRAY_TYPE_OFFSET`. -/
def arrayTypeOffset : Nat := 4

/-- `Heap::ARRAY_ELEMENTS_OFFSET`. -/
def arrayElementsOffset : Nat := 8

/-- `Heap::LATIN1`. -/
def coderLATIN1 : Int := 0

/-- `Heap::UTF16`. -/
def coderUTF16 : Int := 1

/-- The mutable state of `Heap`: the fixed `mmap`-backed capacity, the bump
pointer `allocated` (which starts at `ObjectHeader::SIZE` so that offset 0
can denote null), the byte memory (zero-initialized by `MAP_ANON`), and the
pre-resolved string metadata used by the string allocator. -/
structure Heap where
  capacity : Nat
  allocated : Nat
  mem : Mem
  byteArrayClassId : Nat
  stringClassId : Nat
  stringInstanceSize : Nat

/-- `(total_needed + 7) & !7`: round up to the next multiple of 8.  The
source uses the power-of-two mask idiom on `usize`; over the `usize` range
it agrees with the arithmetic form below. -/
def align8 (n : Nat) : Nat := (n + 7) / 8 * 8

/-- `Heap::alloc_raw`: reserve `ObjectHeader::SIZE + size` bytes rounded up
to 8-byte alignment; fail (without moving the bump pointer) when that does
not fit in the remaining capacity, else return the old bump pointer and
zero the `size` data bytes behind the header.  The source's error is the
placeholder `JvmError::Todo("Heap full")` (the enum's `OutOfMemory` variant
is not used here; the site is marked `// TODO: OOM`). -/
def allocRaw (h : Heap) (size : Nat) : Except JvmError Nat × Heap :=
  if h.allocated + align8 (objectHeaderSize + size) > h.capacity then
    (.error (.todo "Heap full"), h)
  else
    (.ok h.allocated,
     { h with
        allocated := h.allocated + align8 (objectHeaderSize + size),
        mem := writeBytes h.mem (h.allocated + objectHeaderSize)
          (List.replicate size 0) })

/-- The field assignments `get_header_mut` performs: `size: u32` at byte 0,
`class_id: u32` at byte 4, `marked: bool` at byte 8, `is_array: bool` at
byte 9 of the `#[repr(C)]` header (the three padding bytes are left
untouched). -/
def writeHeader (m : Mem) (heapRef size classId : Nat) (isArray : Bool) : Mem :=
  let m1 := writeBytes m (heapRef + 4) (natToLE 4 classId)
  let m2 := writeBytes m1 heapRef (natToLE 4 size)
  let m3 := writeByte m2 (heapRef + 8) 0
  writeByte m3 (heapRef + 9) (if isArray then 1 else 0)

/-- `Heap::alloc_instance`: `alloc_raw` then fill the header with
`class_id`, total size `(ObjectHeader::SIZE + instance_size) as u32`,
`marked = false`, `is_array = false`. -/
def allocInstance (h : Heap) (instanceSize classId : Nat) :
    Except JvmError Nat × Heap :=
  match allocRaw h instanceSize with
  | (.error e, h1) => (.error e, h1)
  | (.ok heapRef, h1) =>
    (.ok heapRef,
     { h1 with
        mem := writeHeader h1.mem heapRef (objectHeaderSize + instanceSize)
          classId false })

/-- `Heap::alloc_array_internal`: negative length is rejected, then
`alloc_raw(ARRAY_ELEMENTS_OFFSET + length * element_size)`, the array
header (`is_array = true`), the `i32` length at data offset 0 and the
allocation-type tag byte at data offset 4.  (The negative-length error is
the placeholder `Todo("Negative array length")`.) -/
def allocArrayInternal (h : Heap) (classId : Nat) (length : Int)
    (allocationType : AllocationType) : Except JvmError Nat × Heap :=
  if length < 0 then (.error (.todo "Negative array length"), h)
  else
    match allocRaw h
        (arrayElementsOffset + length.toNat * allocationType.byteSize) with
    | (.error e, h1) => (.error e, h1)
    | (.ok heapRef, h1) =>
      (.ok heapRef,
       { h1 with
          mem := writeByte
            (writeBytes
              (writeHeader h1.mem heapRef
                (objectHeaderSize
                  + (arrayElementsOffset + length.toNat * allocationType.byteSize))
                classId true)
              (heapRef + objectHeaderSize) (natToLE 4 (truncNat 32 length)))
            (heapRef + objectHeaderSize + arrayTypeOffset)
            allocationType.tag })

/-- `Heap::write_field`: typed store into the data area of an object.  Each
accepted `(value, field_type)` pair stores the value's truncated bit
pattern little-endian at `data_ptr + field_offset`; any other pair is a
`Todo("Type mismatch in write_field")` error and nothing is written. -/
def writeField (h : Heap) (heapRef fieldOffset : Nat) (v : Value)
    (fieldType : AllocationType) : Except JvmError Heap :=
  let target := heapRef + objectHeaderSize + fieldOffset
  match v, fieldType with
  | .integer i, .boolean =>
    .ok { h with mem := writeByte h.mem target (if i ≠ 0 then 1 else 0) }
  | .integer i, .byte =>
    .ok { h with mem := writeBytes h.mem target (natToLE 1 (truncNat 8 i)) }
  | .integer i, .short =>
    .ok { h with mem := writeBytes h.mem target (natToLE 2 (truncNat 16 i)) }
  | .integer i, .char =>
    .ok { h with mem := writeBytes h.mem target (natToLE 2 (truncNat 16 i)) }
  | .integer i, .int =>
    .ok { h with mem := writeBytes h.mem target (natToLE 4 (truncNat 32 i)) }
  | .long l, .long =>
    .ok { h with mem := writeBytes h.mem target (natToLE 8 (truncNat 64 l)) }
  | .float bits, .float =>
    .ok { h with mem := writeBytes h.mem target (natToLE 4 bits) }
  | .double bits, .double =>
    .ok { h with mem := writeBytes h.mem target (natToLE 8 bits) }
  | .ref r, .reference =>
    .ok { h with mem := writeBytes h.mem target (natToLE 8 r) }
  | .null, .reference =>
    .ok { h with mem := writeBytes h.mem target (natToLE 8 0) }
  | _, _ => .error (.todo "Type mismatch in write_field")

/-- The domain of `write_field`'s accepted `(value, field_type)` pairs (the
match arms that store rather than error). -/
def acceptedFieldWrite : Value → AllocationType → Bool
  | .integer _, .boolean => true
  | .integer _, .byte => true
  | .integer _, .short => true
  | .integer _, .char => true
  | .integer _, .int => true
  | .long _, .long => true
  | .float _, .float => true
  | .double _, .double => true
  | .ref _, .reference => true
  | .null, .reference => true
  | _, _ => false

/-- `Heap::read_field`: typed load from the data area.  The source returns
`Result` but every branch is `Ok`; the embedding is total.  Sub-int widths
are sign-extended (byte, short) or zero-extended (char) to `Integer`;
boolean normalizes to 0/1; a reference whose stored offset is 0 loads as
`Null`. -/
def readField (h : Heap) (heapRef fieldOffset : Nat)
    (fieldType : AllocationType) : Value :=
  let src := heapRef + objectHeaderSize + fieldOffset
  match fieldType with
  | .boolean => .integer (if h.mem src ≠ 0 then 1 else 0)
  | .byte => .integer (toSigned 8 (leToNat (readBytes h.mem src 1)))
  | .short => .integer (toSigned 16 (leToNat (readBytes h.mem src 2)))
  | .char => .integer (leToNat (readBytes h.mem src 2))
  | .int => .integer (toSigned 32 (leToNat (readBytes h.mem src 4)))
  | .long => .long (toSigned 64 (leToNat (readBytes h.mem src 8)))
  | .float => .float (leToNat (readBytes h.mem src 4))
  | .double => .double (leToNat (readBytes h.mem src 8))
  | .reference =>
    let r := leToNat (readBytes h.mem src 8)
    if r = 0 then .null else .ref r

/-- Java sign extension: the low `bits` bits of `i` read back as a signed
`bits`-wide two's-complement value. -/
def javaSext (bits : Nat) (i : Int) : Int := toSigned bits (truncNat bits i)

/-- Java zero extension: the low `bits` bits of `i` read back unsigned. -/
def javaZext (bits : Nat) (i : Int) : Int := truncNat bits i

/-! ### Heap lemmas -/

theorem truncNat_lt (bits : Nat) (i : Int) : truncNat bits i < 2 ^ bits := by
  unfold truncNat
  have hpos : (0 : Int) < ((2 ^ bits : Nat) : Int) := by positivity
  have h := Int.emod_lt_of_pos i (b := ((2 ^ bits : Nat) : Int)) hpos
  omega

theorem leToNat_after_write (m : Mem) (t w v : Nat) (hv : v < 256 ^ w) :
    leToNat (readBytes (writeBytes m t (natToLE w v)) t w) = v := by
  rw [leToNat_readBytes_writeBytes, Nat.mod_eq_of_lt hv]

theorem toSigned_truncNat_32 (i : Int) (h1 : -(2 ^ 31) ≤ i) (h2 : i < 2 ^ 31) :
    toSigned 32 (truncNat 32 i) = i := by
  simp only [toSigned, truncNat]
  norm_num
  split <;> omega

theorem toSigned_truncNat_64 (i : Int) (h1 : -(2 ^ 63) ≤ i) (h2 : i < 2 ^ 63) :
    toSigned 64 (truncNat 64 i) = i := by
  simp only [toSigned, truncNat]
  norm_num
  split <;> omega

theorem readBytes_writeByte_disjoint (m : Mem) (a v c n : Nat)
    (h : c + n ≤ a ∨ a + 1 ≤ c) :
    readBytes (writeByte m a v) c n = readBytes m c n := by
  have := readBytes_writeBytes_disjoint m a c [v] n (by simpa using h)
  simpa [writeBytes] using this

/-! ## Claim C5

`write_field` / `read_field` round trip.  The claim holds for every accepted
pair except one corner: `Value::Ref(0)` is accepted by `write_field`
(`(Value::Ref(r), AllocationType::Reference)` has no non-zero guard), but
`read_field` maps a stored offset of 0 back to `Value::Null`, because heap
offset 0 denotes the null reference (§3.1).  So "references round-trip
exactly" fails at `Ref(0)`; null and non-zero references do round-trip. -/

/-- **C5 (counterexample).** Writing the accepted pair
`(Reference, Ref(0))` and reading it back yields `Null`, not `Ref(0)`: the
claim's "references ... round-trip exactly" fails at offset-0 references. -/
theorem claim_C5_ref0_not_round_trip :
    writeField ⟨1024, 16, fun _ => 0, 0, 0, 0⟩ 0 0 (.ref 0) .reference
      = .ok { (⟨1024, 16, fun _ => 0, 0, 0, 0⟩ : Heap) with
          mem := writeBytes (fun _ => 0) 16 (natToLE 8 0) } ∧
    readField { (⟨1024, 16, fun _ => 0, 0, 0, 0⟩ : Heap) with
          mem := writeBytes (fun _ => 0) 16 (natToLE 8 0) } 0 0 .reference
      = .null ∧
    Value.null ≠ Value.ref 0 := by
  exact ⟨rfl, by decide, by decide⟩

/-- **C5 (amended).** For every heap, object reference, field offset and
`(type, value)` pair accepted by `write_field`, the write succeeds and a
`read_field` at the same offset and type returns the written value under
Java sub-int conventions: boolean normalizes to 0/1, byte and short
sign-extend (`javaSext`), char zero-extends (`javaZext`), int, long, float,
double round-trip exactly on in-range values, `Null` round-trips, and a
reference round-trips exactly when its heap offset is non-zero (a stored
offset 0 reads back as `Null`).  A pair outside the accepted domain fails
with the `Todo("Type mismatch in write_field")` error and writes nothing. -/
theorem claim_C5_field_round_trip :
    (∀ (h : Heap) (r o : Nat) (i : Int), ∃ h1,
      writeField h r o (.integer i) .boolean = .ok h1 ∧
      readField h1 r o .boolean = .integer (if i = 0 then 0 else 1)) ∧
    (∀ (h : Heap) (r o : Nat) (i : Int), ∃ h1,
      writeField h r o (.integer i) .byte = .ok h1 ∧
      readField h1 r o .byte = .integer (javaSext 8 i)) ∧
    (∀ (h : Heap) (r o : Nat) (i : Int), ∃ h1,
      writeField h r o (.integer i) .short = .ok h1 ∧
      readField h1 r o .short = .integer (javaSext 16 i)) ∧
    (∀ (h : Heap) (r o : Nat) (i : Int), ∃ h1,
      writeField h r o (.integer i) .char = .ok h1 ∧
      readField h1 r o .char = .integer (javaZext 16 i)) ∧
    (∀ (h : Heap) (r o : Nat) (i : Int), -(2 ^ 31) ≤ i → i < 2 ^ 31 → ∃ h1,
      writeField h r o (.integer i) .int = .ok h1 ∧
      readField h1 r o .int = .integer i) ∧
    (∀ (h : Heap) (r o : Nat) (l : Int), -(2 ^ 63) ≤ l → l < 2 ^ 63 → ∃ h1,
      writeField h r o (.long l) .long = .ok h1 ∧
      readField h1 r o .long = .long l) ∧
    (∀ (h : Heap) (r o bits : Nat), bits < 2 ^ 32 → ∃ h1,
      writeField h r o (.float bits) .float = .ok h1 ∧
      readField h1 r o .float = .float bits) ∧
    (∀ (h : Heap) (r o bits : Nat), bits < 2 ^ 64 → ∃ h1,
      writeField h r o (.double bits) .double = .ok h1 ∧
      readField h1 r o .double = .double bits) ∧
    (∀ (h : Heap) (r o t : Nat), 0 < t → t < 2 ^ 64 → ∃ h1,
      writeField h r o (.ref t) .reference = .ok h1 ∧
      readField h1 r o .reference = .ref t) ∧
    (∀ (h : Heap) (r o : Nat), ∃ h1,
      writeField h r o .null .reference = .ok h1 ∧
      readField h1 r o .reference = .null) ∧
    (∀ (h : Heap) (r o : Nat) (v : Value) (ty : AllocationType),
      acceptedFieldWrite v ty = false →
      writeField h r o v ty = .error (.todo "Type mismatch in write_field")) := by
  refine ⟨?_, ?_, ?_, ?_, ?_, ?_, ?_, ?_, ?_, ?_, ?_⟩
  · intro h r o i
    refine ⟨_, rfl, ?_⟩
    simp only [readField, writeByte]
    rcases eq_or_ne i 0 with hi | hi
    · simp [hi]
    · simp [hi]
  · intro h r o i
    refine ⟨_, rfl, ?_⟩
    simp only [readField]
    rw [leToNat_after_write _ _ _ _
      (by have := truncNat_lt 8 i; norm_num at this ⊢; omega)]
    rfl
  · intro h r o i
    refine ⟨_, rfl, ?_⟩
    simp only [readField]
    rw [leToNat_after_write _ _ _ _
      (by have := truncNat_lt 16 i; norm_num at this ⊢; omega)]
    rfl
  · intro h r o i
    refine ⟨_, rfl, ?_⟩
    simp only [readField]
    rw [leToNat_after_write _ _ _ _
      (by have := truncNat_lt 16 i; norm_num at this ⊢; omega)]
    rfl
  · intro h r o i hlo hhi
    refine ⟨_, rfl, ?_⟩
    simp only [readField]
    rw [leToNat_after_write _ _ _ _
      (by have := truncNat_lt 32 i; norm_num at this ⊢; omega)]
    rw [toSigned_truncNat_32 i hlo hhi]
  · intro h r o l hlo hhi
    refine ⟨_, rfl, ?_⟩
    simp only [readField]
    rw [leToNat_after_write _ _ _ _
      (by have := truncNat_lt 64 l; norm_num at this ⊢; omega)]
    rw [toSigned_truncNat_64 l hlo hhi]
  · intro h r o bits hb
    refine ⟨_, rfl, ?_⟩
    simp only [readField]
    rw [leToNat_after_write _ _ _ _ (by norm_num at hb ⊢; omega)]
  · intro h r o bits hb
    refine ⟨_, rfl, ?_⟩
    simp only [readField]
    rw [leToNat_after_write _ _ _ _ (by norm_num at hb ⊢; omega)]
  · intro h r o t ht0 ht
    refine ⟨_, rfl, ?_⟩
    simp only [readField]
    rw [leToNat_after_write _ _ _ _ (by norm_num at ht ⊢; omega)]
    rw [if_neg (by omega)]
  · intro h r o
    refine ⟨_, rfl, ?_⟩
    simp only [readField]
    rw [leToNat_after_write _ _ _ _ (by norm_num)]
    simp
  · intro h r o v ty hacc
    cases v <;> cases ty <;> simp_all [acceptedFieldWrite, writeField]

/-- Witness for C5: exercises the hypothesis-bearing conjuncts at concrete
inputs (an in-range int, long, float bit pattern, double bit pattern and a
non-zero reference written into a fresh heap). -/
theorem claim_C5_field_round_trip_witness :
    (∃ h1, writeField ⟨64, 16, fun _ => 0, 0, 0, 0⟩ 0 0 (.integer (-5)) .int
        = .ok h1 ∧ readField h1 0 0 .int = .integer (-5)) ∧
    (∃ h1, writeField ⟨64, 16, fun _ => 0, 0, 0, 0⟩ 0 0 (.long (-6)) .long
        = .ok h1 ∧ readField h1 0 0 .long = .long (-6)) ∧
    (∃ h1, writeField ⟨64, 16, fun _ => 0, 0, 0, 0⟩ 0 0 (.float 7) .float
        = .ok h1 ∧ readField h1 0 0 .float = .float 7) ∧
    (∃ h1, writeField ⟨64, 16, fun _ => 0, 0, 0, 0⟩ 0 0 (.double 8) .double
        = .ok h1 ∧ readField h1 0 0 .double = .double 8) ∧
    (∃ h1, writeField ⟨64, 16, fun _ => 0, 0, 0, 0⟩ 0 0 (.ref 24) .reference
        = .ok h1 ∧ readField h1 0 0 .reference = .ref 24) :=
  ⟨claim_C5_field_round_trip.2.2.2.2.1 _ 0 0 (-5) (by norm_num) (by norm_num),
   claim_C5_field_round_trip.2.2.2.2.2.1 _ 0 0 (-6) (by norm_num) (by norm_num),
   claim_C5_field_round_trip.2.2.2.2.2.2.1 _ 0 0 7 (by norm_num),
   claim_C5_field_round_trip.2.2.2.2.2.2.2.1 _ 0 0 8 (by norm_num),
   claim_C5_field_round_trip.2.2.2.2.2.2.2.2.1 _ 0 0 24 (by norm_num) (by norm_num)⟩

/-! ## Claim C9

`alloc_raw` fails exactly when the 8-aligned header-plus-data size exceeds
the remaining capacity, leaves the bump pointer untouched on failure, and
hands out a zeroed, header-prefixed block on success — but the failure is
the placeholder `JvmError::Todo("Heap full")` (the site is marked
`// TODO: OOM`), not the enum's `OutOfMemory` variant the claim names. -/

/-- **C9 (counterexample).** On a concrete exhausted heap (capacity 20,
bump pointer 16) the allocation fails, the heap is returned unchanged, and
the error is `Todo("Heap full")`, which is not the `OutOfMemory` variant
the claim says the failure carries. -/
theorem claim_C9_error_is_not_oom :
    allocRaw ⟨20, 16, fun _ => 0, 0, 0, 0⟩ 0
      = (.error (.todo "Heap full"), ⟨20, 16, fun _ => 0, 0, 0, 0⟩) ∧
    JvmError.todo "Heap full" ≠ JvmError.outOfMemory :=
  ⟨rfl, by decide⟩

/-- **C9 (amended).** `alloc_raw` (and `alloc_instance` on top of it) fails
— with the placeholder `Todo("Heap full")` error rather than
`JvmError::OutOfMemory` — exactly when `align8(header + size)` exceeds the
remaining capacity; on failure the heap (in particular its bump pointer) is
unchanged; on success `alloc_instance` returns the old bump pointer,
advances it by the aligned total, and the block holds the written header
(total size and class id as little-endian `u32`s, `is_array = false`)
followed by `size` zeroed data bytes. -/
theorem claim_C9_alloc_exhaustion :
    (∀ (h : Heap) (size : Nat), h.allocated ≤ h.capacity →
      (((allocRaw h size).1 = .error (.todo "Heap full")) ↔
        h.capacity - h.allocated < align8 (objectHeaderSize + size))) ∧
    (∀ (h : Heap) (size : Nat),
      h.capacity < h.allocated + align8 (objectHeaderSize + size) →
      (allocRaw h size).2 = h ∧
        ∀ classId, (allocInstance h size classId).2 = h) ∧
    (∀ (h : Heap) (size classId : Nat),
      h.allocated + align8 (objectHeaderSize + size) ≤ h.capacity →
      ∃ h1, allocInstance h size classId = (.ok h.allocated, h1) ∧
        h1.allocated = h.allocated + align8 (objectHeaderSize + size) ∧
        readBytes h1.mem (h.allocated + objectHeaderSize) size
          = List.replicate size 0 ∧
        leToNat (readBytes h1.mem h.allocated 4)
          = (objectHeaderSize + size) % 2 ^ 32 ∧
        leToNat (readBytes h1.mem (h.allocated + 4) 4) = classId % 2 ^ 32 ∧
        h1.mem (h.allocated + 9) = 0) := by
  refine ⟨?_, ?_, ?_⟩
  · intro h size hle
    simp only [allocRaw]
    split
    · next hc => exact iff_of_true rfl (by omega)
    · next hc =>
      refine iff_of_false (by simp) (by omega)
  · intro h size hc
    constructor
    · simp only [allocRaw, if_pos (by omega : h.allocated
        + align8 (objectHeaderSize + size) > h.capacity)]
    · intro classId
      simp only [allocInstance, allocRaw, if_pos (by omega : h.allocated
        + align8 (objectHeaderSize + size) > h.capacity)]
  · intro h size classId hfit
    simp only [allocInstance, allocRaw,
      if_neg (by omega : ¬ h.allocated + align8 (objectHeaderSize + size)
        > h.capacity)]
    refine ⟨_, rfl, rfl, ?_, ?_, ?_, ?_⟩
    · simp only [writeHeader]
      rw [readBytes_writeByte_disjoint _ _ _ _ _
          (by simp only [objectHeaderSize]; omega),
        readBytes_writeByte_disjoint _ _ _ _ _
          (by simp only [objectHeaderSize]; omega)]
      rw [readBytes_writeBytes_disjoint _ _ _ _ _
        (Or.inr (by simp only [natToLE_length, objectHeaderSize]; omega))]
      rw [readBytes_writeBytes_disjoint _ _ _ _ _
        (Or.inr (by simp only [natToLE_length, objectHeaderSize]; omega))]
      have hr := readBytes_writeBytes h.mem
        (h.allocated + objectHeaderSize) (List.replicate size 0)
      rw [List.length_replicate] at hr
      rw [hr, List.map_replicate]
    · simp only [writeHeader]
      rw [readBytes_writeByte_disjoint _ _ _ _ _ (by omega),
        readBytes_writeByte_disjoint _ _ _ _ _ (by omega)]
      rw [leToNat_readBytes_writeBytes]
      norm_num
    · simp only [writeHeader]
      rw [readBytes_writeByte_disjoint _ _ _ _ _ (by omega),
        readBytes_writeByte_disjoint _ _ _ _ _ (by omega)]
      rw [readBytes_writeBytes_disjoint _ _ _ _ _
        (Or.inr (by simp only [natToLE_length]; omega))]
      rw [leToNat_readBytes_writeBytes]
      norm_num
    · simp only [writeHeader, writeByte]
      simp

/-- Witness for C9: a concrete successful allocation (capacity 64, bump
pointer 16, data size 4, class id 7), and a concrete exhausted heap. -/
theorem claim_C9_alloc_exhaustion_witness :
    (∃ h1, allocInstance ⟨64, 16, fun _ => 0, 0, 0, 0⟩ 4 7
        = (.ok 16, h1) ∧
      h1.allocated = 16 + align8 (objectHeaderSize + 4) ∧
      readBytes h1.mem (16 + objectHeaderSize) 4 = List.replicate 4 0 ∧
      leToNat (readBytes h1.mem 16 4) = (objectHeaderSize + 4) % 2 ^ 32 ∧
      leToNat (readBytes h1.mem (16 + 4) 4) = 7 % 2 ^ 32 ∧
      h1.mem (16 + 9) = 0) ∧
    ((allocRaw ⟨20, 16, fun _ => 0, 0, 0, 0⟩ 0).1
        = .error (.todo "Heap full") ↔
      20 - 16 < align8 (objectHeaderSize + 0)) :=
  ⟨claim_C9_alloc_exhaustion.2.2 ⟨64, 16, fun _ => 0, 0, 0, 0⟩ 4 7
      (by norm_num [align8, objectHeaderSize]),
   claim_C9_alloc_exhaustion.1 ⟨20, 16, fun _ => 0, 0, 0, 0⟩ 0
      (by norm_num)⟩

/-! ## Claim C4: instance-field layout
(src/runtime/src/rt/class.rs, `InstanceClass::link_fields`)

`link_fields` copies the superclass's `InstanceField` list and running
`instance_size`, then walks the declared fields in declaration order:
statics go into the static map; an instance field first aligns
`instance_size` up to the field's byte size with
`(instance_size + size - 1) & !(size - 1)`, records that as the offset,
appends the `InstanceField` and advances the size. -/

/-- The part of a declared `FieldInfo` that `link_fields` consumes: the
static flag and the descriptor's allocation type (it only uses
`descriptor.as_allocation_type().byte_size()`; parsing happens in the
external class-file crate). -/
structure FieldInfo where
  isStatic : Bool
  ty : AllocationType
  deriving DecidableEq, Repr

/-- `InstanceField` (src/runtime/src/rt/field.rs): the descriptor is
carried as its allocation type; flags are not used by any claim. -/
structure InstanceField where
  ty : AllocationType
  offset : Nat
  declaringClass : Nat
  deriving DecidableEq, Repr

/-- `(instance_size + size - 1) & !(size - 1)`: align `n` up to a multiple
of `size`.  The source's power-of-two mask idiom agrees with this
arithmetic form for the sizes that occur (1, 2, 4, 8). -/
def alignTo (n size : Nat) : Nat := (n + size - 1) / size * size

/-- One iteration of `link_fields`' loop over the declared fields. -/
def linkFieldsStep (thisId : Nat) (acc : List InstanceField × Nat)
    (f : FieldInfo) : List InstanceField × Nat :=
  if f.isStatic then acc
  else
    let size := f.ty.byteSize
    let aligned := alignTo acc.2 size
    (acc.1 ++ [{ ty := f.ty, offset := aligned, declaringClass := thisId }],
     aligned + size)

/-- `InstanceClass::link_fields`, restricted to the instance-field layout:
start from the superclass's field list and `instance_size`, fold the
declared fields in declaration order. -/
def linkFields (superFields : List InstanceField) (superSize : Nat)
    (thisId : Nat) (declared : List FieldInfo) : List InstanceField × Nat :=
  declared.foldl (linkFieldsStep thisId) (superFields, superSize)

/-- Specification of the offsets handed out to the declared instance
fields: each is the running size aligned up to that field's byte size. -/
def layoutOffsets (sz : Nat) : List AllocationType → List Nat
  | [] => []
  | t :: ts =>
    alignTo sz t.byteSize :: layoutOffsets (alignTo sz t.byteSize + t.byteSize) ts

/-- Specification of the final instance size: the superclass size extended
by the aligned sizes of the declared instance fields in order. -/
def layoutSize (sz : Nat) : List AllocationType → Nat
  | [] => sz
  | t :: ts => layoutSize (alignTo sz t.byteSize + t.byteSize) ts

theorem le_alignTo_byteSize (n : Nat) (t : AllocationType) :
    n ≤ alignTo n t.byteSize := by
  cases t <;> simp only [alignTo, AllocationType.byteSize] <;> omega

theorem le_layoutSize (sz : Nat) (ts : List AllocationType) :
    sz ≤ layoutSize sz ts := by
  induction ts generalizing sz with
  | nil => exact le_rfl
  | cons t ts ih =>
    calc sz ≤ alignTo sz t.byteSize := le_alignTo_byteSize sz t
    _ ≤ alignTo sz t.byteSize + t.byteSize := Nat.le_add_right _ _
    _ ≤ layoutSize (alignTo sz t.byteSize + t.byteSize) ts := ih _

theorem linkFields_cons (sf : List InstanceField) (ss tid : Nat)
    (f : FieldInfo) (ds : List FieldInfo) :
    linkFields sf ss tid (f :: ds)
      = linkFields (linkFieldsStep tid (sf, ss) f).1
          (linkFieldsStep tid (sf, ss) f).2 tid ds := by
  simp [linkFields, List.foldl_cons]

/-- **C4.** For every linked instance class, the instance-field layout is
superclass-first: the field list is the superclass's list followed by the
declared instance fields in declaration order, each appended field's offset
is the running `instance_size` aligned up to the field's byte size at the
moment it is appended (`layoutOffsets`), the final `instance_size` is the
superclass's size extended by the aligned field sizes (`layoutSize`), it
never shrinks, and whenever the inherited fields respect the superclass's
size bound, every field `f` satisfies
`offset(f) + size(f) ≤ instance_size`. -/
theorem claim_C4_field_layout :
    ∀ (declared : List FieldInfo) (superFields : List InstanceField)
      (superSize thisId : Nat),
      (∀ f ∈ superFields, f.offset + f.ty.byteSize ≤ superSize) →
      (linkFields superFields superSize thisId declared).1
        = superFields ++
          (((layoutOffsets superSize
              ((declared.filter (fun g => !g.isStatic)).map FieldInfo.ty)).zip
            ((declared.filter (fun g => !g.isStatic)).map FieldInfo.ty)).map
            fun p => ⟨p.2, p.1, thisId⟩) ∧
      (linkFields superFields superSize thisId declared).2
        = layoutSize superSize
            ((declared.filter (fun g => !g.isStatic)).map FieldInfo.ty) ∧
      superSize ≤ (linkFields superFields superSize thisId declared).2 ∧
      ∀ f ∈ (linkFields superFields superSize thisId declared).1,
        f.offset + f.ty.byteSize
          ≤ (linkFields superFields superSize thisId declared).2 := by
  intro declared
  induction declared with
  | nil =>
    intro sf ss tid hinv
    simp only [linkFields, List.foldl_nil, List.filter_nil, List.map_nil,
      layoutOffsets, layoutSize, List.zip_nil_right, List.append_nil]
    exact ⟨trivial, trivial, le_rfl, hinv⟩
  | cons f ds ih =>
    intro sf ss tid hinv
    by_cases hst : f.isStatic
    · have hstep : linkFieldsStep tid (sf, ss) f = (sf, ss) := by
        simp [linkFieldsStep, hst]
      have hfil : (f :: ds).filter (fun g => !g.isStatic)
          = ds.filter (fun g => !g.isStatic) := by
        simp [List.filter_cons, hst]
      rw [linkFields_cons, hstep, hfil]
      exact ih sf ss tid hinv
    · have hstep : linkFieldsStep tid (sf, ss) f
          = (sf ++ [⟨f.ty, alignTo ss f.ty.byteSize, tid⟩],
             alignTo ss f.ty.byteSize + f.ty.byteSize) := by
        simp [linkFieldsStep, hst]
      have hfil : (f :: ds).filter (fun g => !g.isStatic)
          = f :: ds.filter (fun g => !g.isStatic) := by
        simp [List.filter_cons, hst]
      have hinv2 : ∀ g ∈ sf ++ [(⟨f.ty, alignTo ss f.ty.byteSize, tid⟩ :
          InstanceField)],
          g.offset + g.ty.byteSize
            ≤ alignTo ss f.ty.byteSize + f.ty.byteSize := by
        intro g hg
        rcases List.mem_append.mp hg with hg | hg
        · have h1 := hinv g hg
          have h2 := le_alignTo_byteSize ss f.ty
          omega
        · rcases List.mem_singleton.mp hg with rfl
          exact le_rfl
      obtain ⟨ih1, ih2, ih3, ih4⟩ :=
        ih (sf ++ [⟨f.ty, alignTo ss f.ty.byteSize, tid⟩])
          (alignTo ss f.ty.byteSize + f.ty.byteSize) tid hinv2
      rw [linkFields_cons, hstep, hfil]
      refine ⟨?_, ih2, ?_, ih4⟩
      · rw [ih1]
        simp only [List.map_cons, layoutOffsets, List.zip_cons_cons,
          List.map_cons, List.append_assoc, List.singleton_append]
      · calc ss ≤ alignTo ss f.ty.byteSize := by
              exact le_alignTo_byteSize ss f.ty
          _ ≤ alignTo ss f.ty.byteSize + f.ty.byteSize := Nat.le_add_right _ _
          _ ≤ _ := ih3

/-- Witness for C4: a concrete class with a 2-byte superclass layout
(one short at offset 0) declaring byte, static long, int, long — offsets
2, 4, 8 and final instance size 16. -/
theorem claim_C4_field_layout_witness :
    (linkFields [⟨.short, 0, 1⟩] 2 2
        [⟨false, .byte⟩, ⟨true, .long⟩, ⟨false, .int⟩, ⟨false, .long⟩]).1
      = [⟨.short, 0, 1⟩] ++
        (((layoutOffsets 2
            (([(⟨false, .byte⟩ : FieldInfo), ⟨true, .long⟩, ⟨false, .int⟩,
              ⟨false, .long⟩].filter (fun g => !g.isStatic)).map
              FieldInfo.ty)).zip
          (([(⟨false, .byte⟩ : FieldInfo), ⟨true, .long⟩, ⟨false, .int⟩,
            ⟨false, .long⟩].filter (fun g => !g.isStatic)).map
            FieldInfo.ty)).map fun p => ⟨p.2, p.1, 2⟩) ∧
    (linkFields [⟨.short, 0, 1⟩] 2 2
        [⟨false, .byte⟩, ⟨true, .long⟩, ⟨false, .int⟩, ⟨false, .long⟩]).2
      = layoutSize 2
          (([(⟨false, .byte⟩ : FieldInfo), ⟨true, .long⟩, ⟨false, .int⟩,
            ⟨false, .long⟩].filter (fun g => !g.isStatic)).map FieldInfo.ty) ∧
    2 ≤ (linkFields [⟨.short, 0, 1⟩] 2 2
        [⟨false, .byte⟩, ⟨true, .long⟩, ⟨false, .int⟩, ⟨false, .long⟩]).2 ∧
    ∀ f ∈ (linkFields [⟨.short, 0, 1⟩] 2 2
        [⟨false, .byte⟩, ⟨true, .long⟩, ⟨false, .int⟩, ⟨false, .long⟩]).1,
      f.offset + f.ty.byteSize
        ≤ (linkFields [⟨.short, 0, 1⟩] 2 2
            [⟨false, .byte⟩, ⟨true, .long⟩, ⟨false, .int⟩, ⟨false, .long⟩]).2 :=
  claim_C4_field_layout _ _ _ _ (by decide)

/-! ## Runtime constant pool (src/runtime/src/rt/constant_pool/mod.rs)

The per-entry structs live in `constant_pool/entry.rs` (not among the
provided sources); their index fields are reconstructed from how `mod.rs`
uses them.  The lazily-resolved `OnceCell` symbol caches are dropped: the
embedding is pure and always recomputes, which agrees with the cached
behavior because caches are only filled with successfully computed values.
The interner (external `lasso` crate) is injective, so a `Symbol` is
embedded as the interned string itself. -/

/-- Interned string. -/
abbrev Symbol := String

/-- `MethodHandleType`: a handle kind with the constant-pool index of its
target member. -/
inductive MethodHandleType where
  | getField (idx : Nat)
  | getStatic (idx : Nat)
  | putField (idx : Nat)
  | putStatic (idx : Nat)
  | invokeVirtual (idx : Nat)
  | invokeStatic (idx : Nat)
  | invokeSpecial (idx : Nat)
  | newInvokeSpecial (idx : Nat)
  | invokeInterface (idx : Nat)
  deriving DecidableEq, Repr

/-- `RuntimeConstant`: one runtime-constant-pool entry (caches dropped,
nested indices kept).  Float/double literals are carried as bit
patterns. -/
inductive RuntimeConstant where
  | unused
  | utf8 (value : String)
  | integer (v : Int)
  | float (bits : Nat)
  | long (v : Int)
  | double (bits : Nat)
  | classEntry (nameIdx : Nat)
  | stringEntry (stringIdx : Nat)
  | methodEntry (classIdx natIdx : Nat)
  | fieldEntry (classIdx natIdx : Nat)
  | invokeDynamicEntry (bootstrapIdx natIdx : Nat)
  | interfaceMethodEntry (classIdx natIdx : Nat)
  | nameAndTypeEntry (nameIdx descriptorIdx : Nat)
  | methodType
  | methodHandle (h : MethodHandleType)
  deriving DecidableEq, Repr

/-- `RuntimeConstant::get_type`. -/
def RuntimeConstant.getType : RuntimeConstant → RuntimeConstantType
  | .unused => .unused
  | .utf8 _ => .utf8
  | .integer _ => .integer
  | .float _ => .float
  | .long _ => .long
  | .double _ => .double
  | .classEntry _ => .classKind
  | .stringEntry _ => .stringKind
  | .methodEntry _ _ => .methodKind
  | .fieldEntry _ _ => .fieldKind
  | .interfaceMethodEntry _ _ => .interfaceMethod
  | .nameAndTypeEntry _ _ => .nameAndType
  | .invokeDynamicEntry _ _ => .invokeDynamic
  | .methodType => .methodType
  | .methodHandle _ => .methodHandle

/-- `BootstrapMethodEntry` (external `lagertha_classfile` crate, modelled
from its use in `get_invoke_dynamic_view`): the method-handle constant
index and the bootstrap argument indices. -/
structure BootstrapMethodEntry where
  bootstrapMethodIdx : Nat
  bootstrapArguments : List Nat
  deriving DecidableEq, Repr

/-- `RuntimeConstantPool`. -/
structure RuntimeConstantPool where
  entries : List RuntimeConstant
  bootstrapEntries : List BootstrapMethodEntry
  deriving DecidableEq, Repr

/-- `NameAndTypeEntryView`. -/
structure NameAndTypeEntryView where
  name : Symbol
  desc : Symbol
  deriving DecidableEq, Repr

/-- `MethodEntryView` (also used for interface methods). -/
structure MethodEntryView where
  classSym : Symbol
  nat : NameAndTypeEntryView
  deriving DecidableEq, Repr

/-- `FieldEntryView`. -/
structure FieldEntryView where
  classSym : Symbol
  nat : NameAndTypeEntryView
  deriving DecidableEq, Repr

/-- `MethodHandleEntryView`. -/
inductive MethodHandleEntryView where
  | getField (v : FieldEntryView)
  | getStatic (v : FieldEntryView)
  | putField (v : FieldEntryView)
  | putStatic (v : FieldEntryView)
  | invokeVirtual (v : MethodEntryView)
  | invokeStatic (v : MethodEntryView)
  | invokeSpecial (v : MethodEntryView)
  | newInvokeSpecial (v : MethodEntryView)
  | invokeInterface (v : MethodEntryView)
  deriving DecidableEq, Repr

/-- `InvokeDynamicEntryView`. -/
structure InvokeDynamicEntryView where
  handle : MethodHandleEntryView
  args : List Nat
  nat : NameAndTypeEntryView
  deriving DecidableEq, Repr

/-- `RuntimeConstantPool::entry`: in-range lookup or
`ClassFormatError("Invalid constant pool index: {idx}")`. -/
def RuntimeConstantPool.entry (cp : RuntimeConstantPool) (idx : Nat) :
    Except JvmError RuntimeConstant :=
  match cp.entries[idx]? with
  | some e => .ok e
  | none =>
    .error (javaErr .classFormatError
      ("Invalid constant pool index: " ++ toString idx))

/-- `RuntimeConstantPool::bootstrap_entry`. -/
def RuntimeConstantPool.bootstrapEntry (cp : RuntimeConstantPool)
    (idx : Nat) : Except JvmError BootstrapMethodEntry :=
  match cp.bootstrapEntries[idx]? with
  | some e => .ok e
  | none =>
    .error (javaErr .classFormatError
      ("Invalid bootstrap methods index: " ++ toString idx))

/-- `get_utf8_sym`: the interned symbol of a `Utf8` entry, or the
structured `IncompatibleClassChangeError` on a tag mismatch. -/
def RuntimeConstantPool.getUtf8Sym (cp : RuntimeConstantPool) (idx : Nat) :
    Except JvmError Symbol := do
  match ← cp.entry idx with
  | .utf8 v => return v
  | other =>
    throw (poolMismatchErr .incompatibleClassChangeError idx
      .utf8 other.getType)

/-- `get_class_sym`: resolves the `Class` entry's name `Utf8`. -/
def RuntimeConstantPool.getClassSym (cp : RuntimeConstantPool) (idx : Nat) :
    Except JvmError Symbol := do
  match ← cp.entry idx with
  | .classEntry nameIdx => cp.getUtf8Sym nameIdx
  | other =>
    throw (poolMismatchErr .incompatibleClassChangeError idx
      .classKind other.getType)

/-- `get_string_sym`. -/
def RuntimeConstantPool.getStringSym (cp : RuntimeConstantPool) (idx : Nat) :
    Except JvmError Symbol := do
  match ← cp.entry idx with
  | .stringEntry stringIdx => cp.getUtf8Sym stringIdx
  | other =>
    throw (poolMismatchErr .incompatibleClassChangeError idx
      .stringKind other.getType)

/-- `get_nat_view`: note the source reports the expected kind as
`MethodNameAndType` (not `NameAndType`) on a mismatch. -/
def RuntimeConstantPool.getNatView (cp : RuntimeConstantPool) (idx : Nat) :
    Except JvmError NameAndTypeEntryView := do
  match ← cp.entry idx with
  | .nameAndTypeEntry nameIdx descriptorIdx => do
    let nameSym ← cp.getUtf8Sym nameIdx
    let descriptorSym ← cp.getUtf8Sym descriptorIdx
    return ⟨nameSym, descriptorSym⟩
  | other =>
    throw (poolMismatchErr .incompatibleClassChangeError idx
      .methodNameAndType other.getType)

/-- `get_method_view`. -/
def RuntimeConstantPool.getMethodView (cp : RuntimeConstantPool)
    (idx : Nat) : Except JvmError MethodEntryView := do
  match ← cp.entry idx with
  | .methodEntry classIdx natIdx => do
    let classSym ← cp.getClassSym classIdx
    let natView ← cp.getNatView natIdx
    return ⟨classSym, natView⟩
  | other =>
    throw (poolMismatchErr .incompatibleClassChangeError idx
      .methodKind other.getType)

/-- `get_interface_method_view`. -/
def RuntimeConstantPool.getInterfaceMethodView (cp : RuntimeConstantPool)
    (idx : Nat) : Except JvmError MethodEntryView := do
  match ← cp.entry idx with
  | .interfaceMethodEntry classIdx natIdx => do
    let classSym ← cp.getClassSym classIdx
    let natView ← cp.getNatView natIdx
    return ⟨classSym, natView⟩
  | other =>
    throw (poolMismatchErr .incompatibleClassChangeError idx
      .interfaceMethod other.getType)

/-- `get_field_view`. -/
def RuntimeConstantPool.getFieldView (cp : RuntimeConstantPool)
    (idx : Nat) : Except JvmError FieldEntryView := do
  match ← cp.entry idx with
  | .fieldEntry classIdx natIdx => do
    let classSym ← cp.getClassSym classIdx
    let natView ← cp.getNatView natIdx
    return ⟨classSym, natView⟩
  | other =>
    throw (poolMismatchErr .incompatibleClassChangeError idx
      .fieldKind other.getType)

/-- The inner match of `get_method_handle_view` on the handle kind. -/
def RuntimeConstantPool.resolveHandle (cp : RuntimeConstantPool) :
    MethodHandleType → Except JvmError MethodHandleEntryView
  | .getField i => do return .getField (← cp.getFieldView i)
  | .getStatic i => do return .getStatic (← cp.getFieldView i)
  | .putField i => do return .putField (← cp.getFieldView i)
  | .putStatic i => do return .putStatic (← cp.getFieldView i)
  | .invokeVirtual i => do return .invokeVirtual (← cp.getMethodView i)
  | .invokeStatic i => do return .invokeStatic (← cp.getMethodView i)
  | .invokeSpecial i => do return .invokeSpecial (← cp.getMethodView i)
  | .newInvokeSpecial i => do return .newInvokeSpecial (← cp.getMethodView i)
  | .invokeInterface i => do
    return .invokeInterface (← cp.getInterfaceMethodView i)

/-- `get_method_handle_view`. -/
def RuntimeConstantPool.getMethodHandleView (cp : RuntimeConstantPool)
    (idx : Nat) : Except JvmError MethodHandleEntryView := do
  match ← cp.entry idx with
  | .methodHandle h => cp.resolveHandle h
  | other =>
    throw (poolMismatchErr .incompatibleClassChangeError idx
      .methodHandle other.getType)

/-- `get_invoke_dynamic_view`. -/
def RuntimeConstantPool.getInvokeDynamicView (cp : RuntimeConstantPool)
    (idx : Nat) : Except JvmError InvokeDynamicEntryView := do
  match ← cp.entry idx with
  | .invokeDynamicEntry bootstrapIdx natIdx => do
    let be ← cp.bootstrapEntry bootstrapIdx
    let methodHandleView ← cp.getMethodHandleView be.bootstrapMethodIdx
    let natView ← cp.getNatView natIdx
    return ⟨methodHandleView, be.bootstrapArguments, natView⟩
  | other =>
    throw (poolMismatchErr .incompatibleClassChangeError idx
      .invokeDynamic other.getType)

/-! ### Reduction helpers for the `Except` monad -/

@[simp] theorem except_bind_ok {α β : Type} {E : Type} (a : α)
    (f : α → Except E β) : (Except.ok a >>= f) = f a := rfl

@[simp] theorem except_bind_err {α β : Type} {E : Type} (e : E)
    (f : α → Except E β) :
    ((Except.error e : Except E α) >>= f) = Except.error e := rfl

@[simp] theorem except_throw {α E : Type} (e : E) :
    (throw e : Except E α) = Except.error e := rfl

@[simp] theorem except_pure {α E : Type} (a : α) :
    (pure a : Except E α) = Except.ok a := rfl

/-! ## Claim C7

The two error behaviors hold exactly as claimed: an out-of-range index is a
`ClassFormatError`, and an in-range tag mismatch is an
`IncompatibleClassChangeError` carrying the index, the expected kind and
the actual kind.  The final clause — "an entry of the matching kind does
not produce either error" — fails: the reference-shaped accessors resolve
nested indices, and those nested resolutions can themselves be out of range
or mismatched (e.g. a `Class` entry whose name index lies outside the
pool). -/

/-- **C7 (counterexample).** A pool consisting of the single entry
`Class(5)`: the entry at index 0 has the matching `Class` kind, yet
`get_class_sym(0)` produces a `ClassFormatError` (from the nested Utf8
index 5, which is out of range) — refuting "an entry of the matching kind
does not produce either error". -/
theorem claim_C7_matching_kind_can_error :
    (RuntimeConstant.classEntry 5).getType = .classKind ∧
    RuntimeConstantPool.getClassSym ⟨[.classEntry 5], []⟩ 0
      = .error (javaErr .classFormatError "Invalid constant pool index: 5") :=
  ⟨rfl, rfl⟩

/-- **C7 (amended).** For every accessor and index: an out-of-range index
fails with `ClassFormatError`; an in-range entry of the wrong kind fails
with an `IncompatibleClassChangeError` carrying the index, the accessor's
expected kind and the entry's actual kind; and an entry of the matching
kind never itself fails at that index — it resolves to its payload or
delegates to the accessors for its nested indices (whose own failures are
the only remaining error source). -/
theorem claim_C7_pool_accessor_errors :
    (∀ (cp : RuntimeConstantPool) (idx : Nat), cp.entries.length ≤ idx →
      cp.getUtf8Sym idx = .error (javaErr .classFormatError
          ("Invalid constant pool index: " ++ toString idx)) ∧
      cp.getClassSym idx = .error (javaErr .classFormatError
          ("Invalid constant pool index: " ++ toString idx)) ∧
      cp.getStringSym idx = .error (javaErr .classFormatError
          ("Invalid constant pool index: " ++ toString idx)) ∧
      cp.getNatView idx = .error (javaErr .classFormatError
          ("Invalid constant pool index: " ++ toString idx)) ∧
      cp.getMethodView idx = .error (javaErr .classFormatError
          ("Invalid constant pool index: " ++ toString idx)) ∧
      cp.getInterfaceMethodView idx = .error (javaErr .classFormatError
          ("Invalid constant pool index: " ++ toString idx)) ∧
      cp.getFieldView idx = .error (javaErr .classFormatError
          ("Invalid constant pool index: " ++ toString idx)) ∧
      cp.getMethodHandleView idx = .error (javaErr .classFormatError
          ("Invalid constant pool index: " ++ toString idx)) ∧
      cp.getInvokeDynamicView idx = .error (javaErr .classFormatError
          ("Invalid constant pool index: " ++ toString idx))) ∧
    (∀ (cp : RuntimeConstantPool) (idx : Nat) (e : RuntimeConstant),
      cp.entries[idx]? = some e →
      (e.getType ≠ .utf8 →
        cp.getUtf8Sym idx = .error (poolMismatchErr
          .incompatibleClassChangeError idx .utf8 e.getType)) ∧
      (e.getType ≠ .classKind →
        cp.getClassSym idx = .error (poolMismatchErr
          .incompatibleClassChangeError idx .classKind e.getType)) ∧
      (e.getType ≠ .stringKind →
        cp.getStringSym idx = .error (poolMismatchErr
          .incompatibleClassChangeError idx .stringKind e.getType)) ∧
      (e.getType ≠ .nameAndType →
        cp.getNatView idx = .error (poolMismatchErr
          .incompatibleClassChangeError idx .methodNameAndType e.getType)) ∧
      (e.getType ≠ .methodKind →
        cp.getMethodView idx = .error (poolMismatchErr
          .incompatibleClassChangeError idx .methodKind e.getType)) ∧
      (e.getType ≠ .interfaceMethod →
        cp.getInterfaceMethodView idx = .error (poolMismatchErr
          .incompatibleClassChangeError idx .interfaceMethod e.getType)) ∧
      (e.getType ≠ .fieldKind →
        cp.getFieldView idx = .error (poolMismatchErr
          .incompatibleClassChangeError idx .fieldKind e.getType)) ∧
      (e.getType ≠ .methodHandle →
        cp.getMethodHandleView idx = .error (poolMismatchErr
          .incompatibleClassChangeError idx .methodHandle e.getType)) ∧
      (e.getType ≠ .invokeDynamic →
        cp.getInvokeDynamicView idx = .error (poolMismatchErr
          .incompatibleClassChangeError idx .invokeDynamic e.getType))) ∧
    (∀ (cp : RuntimeConstantPool) (idx : Nat),
      (∀ v, cp.entries[idx]? = some (.utf8 v) →
        cp.getUtf8Sym idx = .ok v) ∧
      (∀ n, cp.entries[idx]? = some (.classEntry n) →
        cp.getClassSym idx = cp.getUtf8Sym n) ∧
      (∀ n, cp.entries[idx]? = some (.stringEntry n) →
        cp.getStringSym idx = cp.getUtf8Sym n) ∧
      (∀ n d s1 s2, cp.entries[idx]? = some (.nameAndTypeEntry n d) →
        cp.getUtf8Sym n = .ok s1 → cp.getUtf8Sym d = .ok s2 →
        cp.getNatView idx = .ok ⟨s1, s2⟩) ∧
      (∀ c n cs nv, cp.entries[idx]? = some (.methodEntry c n) →
        cp.getClassSym c = .ok cs → cp.getNatView n = .ok nv →
        cp.getMethodView idx = .ok ⟨cs, nv⟩) ∧
      (∀ c n cs nv, cp.entries[idx]? = some (.interfaceMethodEntry c n) →
        cp.getClassSym c = .ok cs → cp.getNatView n = .ok nv →
        cp.getInterfaceMethodView idx = .ok ⟨cs, nv⟩) ∧
      (∀ c n cs nv, cp.entries[idx]? = some (.fieldEntry c n) →
        cp.getClassSym c = .ok cs → cp.getNatView n = .ok nv →
        cp.getFieldView idx = .ok ⟨cs, nv⟩) ∧
      (∀ mh, cp.entries[idx]? = some (.methodHandle mh) →
        cp.getMethodHandleView idx = cp.resolveHandle mh) ∧
      (∀ b n be mhv nv, cp.entries[idx]? = some (.invokeDynamicEntry b n) →
        cp.bootstrapEntry b = .ok be →
        cp.getMethodHandleView be.bootstrapMethodIdx = .ok mhv →
        cp.getNatView n = .ok nv →
        cp.getInvokeDynamicView idx
          = .ok ⟨mhv, be.bootstrapArguments, nv⟩)) := by
  refine ⟨?_, ?_, ?_⟩
  · intro cp idx h
    have hnone : cp.entries[idx]? = none := List.getElem?_eq_none h
    refine ⟨?_, ?_, ?_, ?_, ?_, ?_, ?_, ?_, ?_⟩ <;>
      simp [RuntimeConstantPool.getUtf8Sym, RuntimeConstantPool.getClassSym,
        RuntimeConstantPool.getStringSym, RuntimeConstantPool.getNatView,
        RuntimeConstantPool.getMethodView,
        RuntimeConstantPool.getInterfaceMethodView,
        RuntimeConstantPool.getFieldView,
        RuntimeConstantPool.getMethodHandleView,
        RuntimeConstantPool.getInvokeDynamicView,
        RuntimeConstantPool.entry, hnone]
  · intro cp idx e he
    have hentry : cp.entry idx = .ok e := by
      simp [RuntimeConstantPool.entry, he]
    refine ⟨?_, ?_, ?_, ?_, ?_, ?_, ?_, ?_, ?_⟩ <;> intro hne
    · cases e <;> first
        | exact absurd rfl hne
        | (simp only [RuntimeConstantPool.getUtf8Sym, hentry, except_bind_ok]; rfl)
    · cases e <;> first
        | exact absurd rfl hne
        | (simp only [RuntimeConstantPool.getClassSym, hentry, except_bind_ok]; rfl)
    · cases e <;> first
        | exact absurd rfl hne
        | (simp only [RuntimeConstantPool.getStringSym, hentry, except_bind_ok]; rfl)
    · cases e <;> first
        | exact absurd rfl hne
        | (simp only [RuntimeConstantPool.getNatView, hentry, except_bind_ok]; rfl)
    · cases e <;> first
        | exact absurd rfl hne
        | (simp only [RuntimeConstantPool.getMethodView, hentry, except_bind_ok]; rfl)
    · cases e <;> first
        | exact absurd rfl hne
        | (simp only [RuntimeConstantPool.getInterfaceMethodView, hentry, except_bind_ok]; rfl)
    · cases e <;> first
        | exact absurd rfl hne
        | (simp only [RuntimeConstantPool.getFieldView, hentry, except_bind_ok]; rfl)
    · cases e <;> first
        | exact absurd rfl hne
        | (simp only [RuntimeConstantPool.getMethodHandleView, hentry, except_bind_ok]; rfl)
    · cases e <;> first
        | exact absurd rfl hne
        | (simp only [RuntimeConstantPool.getInvokeDynamicView, hentry, except_bind_ok]; rfl)
  · intro cp idx
    refine ⟨?_, ?_, ?_, ?_, ?_, ?_, ?_, ?_, ?_⟩
    · intro v he
      have hentry : cp.entry idx = .ok (.utf8 v) := by
        simp [RuntimeConstantPool.entry, he]
      simp [RuntimeConstantPool.getUtf8Sym, hentry]
    · intro n he
      have hentry : cp.entry idx = .ok (.classEntry n) := by
        simp [RuntimeConstantPool.entry, he]
      simp [RuntimeConstantPool.getClassSym, hentry]
    · intro n he
      have hentry : cp.entry idx = .ok (.stringEntry n) := by
        simp [RuntimeConstantPool.entry, he]
      simp [RuntimeConstantPool.getStringSym, hentry]
    · intro n d s1 s2 he h1 h2
      have hentry : cp.entry idx = .ok (.nameAndTypeEntry n d) := by
        simp [RuntimeConstantPool.entry, he]
      simp [RuntimeConstantPool.getNatView, hentry, h1, h2]
    · intro c n cs nv he h1 h2
      have hentry : cp.entry idx = .ok (.methodEntry c n) := by
        simp [RuntimeConstantPool.entry, he]
      simp [RuntimeConstantPool.getMethodView, hentry, h1, h2]
    · intro c n cs nv he h1 h2
      have hentry : cp.entry idx = .ok (.interfaceMethodEntry c n) := by
        simp [RuntimeConstantPool.entry, he]
      simp [RuntimeConstantPool.getInterfaceMethodView, hentry, h1, h2]
    · intro c n cs nv he h1 h2
      have hentry : cp.entry idx = .ok (.fieldEntry c n) := by
        simp [RuntimeConstantPool.entry, he]
      simp [RuntimeConstantPool.getFieldView, hentry, h1, h2]
    · intro mh he
      have hentry : cp.entry idx = .ok (.methodHandle mh) := by
        simp [RuntimeConstantPool.entry, he]
      simp [RuntimeConstantPool.getMethodHandleView, hentry]
    · intro b n be mhv nv he h1 h2 h3
      have hentry : cp.entry idx = .ok (.invokeDynamicEntry b n) := by
        simp [RuntimeConstantPool.entry, he]
      simp [RuntimeConstantPool.getInvokeDynamicView, hentry, h1, h2, h3]

/-- Witness for C7: a tiny concrete pool exercising all three branches —
an out-of-range index, an in-range mismatch (asking for a class symbol at
a Utf8 entry), and a matching `Class → Utf8` resolution. -/
theorem claim_C7_pool_accessor_errors_witness :
    (RuntimeConstantPool.getUtf8Sym ⟨[.utf8 "A", .classEntry 0], []⟩ 7
      = .error (javaErr .classFormatError
          ("Invalid constant pool index: " ++ toString 7))) ∧
    (RuntimeConstantPool.getClassSym ⟨[.utf8 "A", .classEntry 0], []⟩ 0
      = .error (poolMismatchErr .incompatibleClassChangeError 0
          .classKind (RuntimeConstant.utf8 "A").getType)) ∧
    (RuntimeConstantPool.getClassSym ⟨[.utf8 "A", .classEntry 0], []⟩ 1
      = RuntimeConstantPool.getUtf8Sym ⟨[.utf8 "A", .classEntry 0], []⟩ 0) :=
  ⟨(claim_C7_pool_accessor_errors.1 ⟨[.utf8 "A", .classEntry 0], []⟩ 7
      (by norm_num)).1,
   ((claim_C7_pool_accessor_errors.2.1 ⟨[.utf8 "A", .classEntry 0], []⟩ 0
      (.utf8 "A") (by rfl)).2.1 (by decide)),
   ((claim_C7_pool_accessor_errors.2.2 ⟨[.utf8 "A", .classEntry 0], []⟩
      1).2.1 0 (by rfl))⟩

/-! ## Claim C1: exception dispatch
(src/runtime/src/interpreter/mod.rs, `Interpreter::find_exception_handler`)

On a caught exception the source pushes the exception reference onto the
current frame's operand stack and sets the pc to `handler_pc` — it does
*not* clear the operand stack first, so the handler resumes with the
exception on top of whatever operands the frame held at the throwing
instruction, not with a stack containing only the exception. -/

/-- `ExceptionTableEntry` (external `lagertha_classfile` crate; the four
`u16` fields are visible from their use in `find_exception_handler`). -/
structure ExceptionTableEntry where
  startPc : Nat
  endPc : Nat
  handlerPc : Nat
  catchType : Nat
  deriving DecidableEq, Repr

/-- `Interpreter::pc_in_range`: `start_pc ≤ pc < end_pc`. -/
def pcInRange (pc : Nat) (entry : ExceptionTableEntry) : Bool :=
  decide (entry.startPc ≤ pc) && decide (pc < entry.endPc)

/-- `Interpreter::is_exception_caught`: `catch_type == 0` is the
finally-style catch-all; otherwise the catch type's class symbol is
resolved from the frame method's runtime constant pool (which can fail)
and `MethodArea::instance_of` decides assignability.  The thrown object's
class id and the method area are abstracted into `instOf`, the predicate
`instance_of(exception_class_id, ·)` of the thrown object. -/
def isExceptionCaught (cp : RuntimeConstantPool) (instOf : Symbol → Bool)
    (entry : ExceptionTableEntry) : Except JvmError Bool :=
  if entry.catchType = 0 then .ok true
  else do
    let catchTypeSym ← cp.getClassSym entry.catchType
    return (instOf catchTypeSym)

/-- `Interpreter::find_exception_handler`: walk the exception table in
order; the first entry whose `[start_pc, end_pc)` range contains the pc of
the throwing instruction and which catches the exception receives control:
the exception reference is pushed onto the operand stack (which is left
otherwise untouched) and the pc is set to `handler_pc`.  `none` means no
entry matched (the caller pops the frame and re-raises). -/
def findExceptionHandler (cp : RuntimeConstantPool) (instOf : Symbol → Bool)
    (pc : Nat) (javaException : Nat) :
    List ExceptionTableEntry → OperandStack →
    Except JvmError (Option (OperandStack × Nat))
  | [], _ => .ok none
  | entry :: rest, stack =>
    if pcInRange pc entry then
      match isExceptionCaught cp instOf entry with
      | .error e => .error e
      | .ok true =>
        .ok (some (pushOperand (.ref javaException) stack, entry.handlerPc))
      | .ok false => findExceptionHandler cp instOf pc javaException rest stack
    else
      findExceptionHandler cp instOf pc javaException rest stack

/-- **C1 (counterexample).** A frame whose operand stack holds `Integer 7`
at the throwing instruction, with a catch-all entry covering the pc:
dispatch resumes at the handler with the stack `[exception, Integer 7]`,
not with the stack containing only the exception — the operand stack is
not cleared. -/
theorem claim_C1_stack_not_cleared :
    findExceptionHandler ⟨[], []⟩ (fun _ => false) 3 99
        [⟨0, 10, 42, 0⟩] [.integer 7]
      = .ok (some ([.ref 99, .integer 7], 42)) ∧
    [Value.ref 99, Value.integer 7] ≠ [Value.ref 99] :=
  ⟨rfl, by decide⟩

/-- **C1 (amended).** Whenever an interpreted frame's exception table
contains an entry whose `[start_pc, end_pc)` range includes the pc of the
throwing instruction and whose catch type is 0 or resolves to a class the
exception is assignable to, dispatch sets the pc to that entry's
`handler_pc` and pushes the exception reference on top of the operand
stack as it was at the throw (the stack is not cleared): the first such
entry wins, out-of-range entries and non-catching entries are skipped, an
empty table reports no handler, and any successful dispatch has this
exact shape. -/
theorem claim_C1_exception_dispatch :
    (∀ (cp : RuntimeConstantPool) (instOf : Symbol → Bool)
      (pc exc : Nat) (stack : OperandStack),
      findExceptionHandler cp instOf pc exc [] stack = .ok none) ∧
    (∀ (cp : RuntimeConstantPool) (instOf : Symbol → Bool) (pc exc : Nat)
      (entry : ExceptionTableEntry) (rest : List ExceptionTableEntry)
      (stack : OperandStack),
      pcInRange pc entry = true →
      isExceptionCaught cp instOf entry = .ok true →
      findExceptionHandler cp instOf pc exc (entry :: rest) stack
        = .ok (some (pushOperand (.ref exc) stack, entry.handlerPc))) ∧
    (∀ (cp : RuntimeConstantPool) (instOf : Symbol → Bool) (pc exc : Nat)
      (entry : ExceptionTableEntry) (rest : List ExceptionTableEntry)
      (stack : OperandStack),
      pcInRange pc entry = false →
      findExceptionHandler cp instOf pc exc (entry :: rest) stack
        = findExceptionHandler cp instOf pc exc rest stack) ∧
    (∀ (cp : RuntimeConstantPool) (instOf : Symbol → Bool) (pc exc : Nat)
      (entry : ExceptionTableEntry) (rest : List ExceptionTableEntry)
      (stack : OperandStack),
      pcInRange pc entry = true →
      isExceptionCaught cp instOf entry = .ok false →
      findExceptionHandler cp instOf pc exc (entry :: rest) stack
        = findExceptionHandler cp instOf pc exc rest stack) ∧
    (∀ (cp : RuntimeConstantPool) (instOf : Symbol → Bool) (pc exc : Nat)
      (entries : List ExceptionTableEntry) (stack s1 : OperandStack)
      (pc1 : Nat),
      findExceptionHandler cp instOf pc exc entries stack
        = .ok (some (s1, pc1)) →
      ∃ entry ∈ entries, pcInRange pc entry = true ∧
        isExceptionCaught cp instOf entry = .ok true ∧
        s1 = pushOperand (.ref exc) stack ∧ pc1 = entry.handlerPc) := by
  refine ⟨fun _ _ _ _ _ => rfl, ?_, ?_, ?_, ?_⟩
  · intro cp instOf pc exc entry rest stack hrange hcaught
    simp [findExceptionHandler, hrange, hcaught]
  · intro cp instOf pc exc entry rest stack hrange
    simp [findExceptionHandler, hrange]
  · intro cp instOf pc exc entry rest stack hrange hcaught
    simp [findExceptionHandler, hrange, hcaught]
  · intro cp instOf pc exc entries
    induction entries with
    | nil => intro stack s1 pc1 h; exact absurd h (by simp [findExceptionHandler])
    | cons entry rest ih =>
      intro stack s1 pc1 h
      by_cases hrange : pcInRange pc entry
      · rcases hc : isExceptionCaught cp instOf entry with e | b
        · rw [findExceptionHandler, if_pos hrange, hc] at h
          exact absurd h (by simp)
        · cases b
          · rw [findExceptionHandler, if_pos hrange, hc] at h
            obtain ⟨e, he, h1, h2, h3, h4⟩ := ih stack s1 pc1 h
            exact ⟨e, List.mem_cons_of_mem _ he, h1, h2, h3, h4⟩
          · rw [findExceptionHandler, if_pos hrange, hc] at h
            simp only [Except.ok.injEq, Option.some.injEq, Prod.mk.injEq] at h
            exact ⟨entry, List.mem_cons_self _ _, hrange, hc, h.1.symm, h.2.symm⟩
      · rw [findExceptionHandler, if_neg hrange] at h
        obtain ⟨e, he, h1, h2, h3, h4⟩ := ih stack s1 pc1 h
        exact ⟨e, List.mem_cons_of_mem _ he, h1, h2, h3, h4⟩

/-- Witness for C1: a concrete dispatch through a table whose first entry
does not cover the pc and whose second is a catch-all covering it. -/
theorem claim_C1_exception_dispatch_witness :
    findExceptionHandler ⟨[], []⟩ (fun _ => true) 5 77
        [⟨8, 12, 20, 0⟩, ⟨4, 9, 33, 0⟩] [.integer 1, .null]
      = .ok (some (pushOperand (.ref 77) [.integer 1, .null], 33)) := by
  rw [claim_C1_exception_dispatch.2.2.1 _ _ _ _ _ _ _ (by decide)]
  exact claim_C1_exception_dispatch.2.1 _ _ _ _ _ _ _ (by decide) rfl

/-! ## Claim C3: class initialization
(src/runtime/src/interpreter/mod.rs, `Interpreter::ensure_initialized`)

The embedding tracks the per-class atomic init state and the order in which
`run_clinit_if_exists` invokes `<clinit>` methods (one trace event per
invocation, carrying the class id).  The bodies of the `<clinit>` methods
themselves are interpreted bytecode and are outside this model, as is the
`jdk/internal/access/SharedSecrets` static-field stub inside
`ensure_initialized` (it writes one static field and touches neither init
states nor the `<clinit>` order).  `none` models both a method-area lookup
failure (`get_class_like` / `get_interface_class` on a bad id) and
insufficient recursion fuel. -/

/-- The atomic init state of `BaseClass` (§3.2): Loaded → Linked →
Initializing → Initialized. -/
inductive ClassState where
  | loaded
  | linked
  | initializing
  | initialized
  deriving DecidableEq, Repr

/-- Which `JvmClass` variant a class id resolves to, as far as
`ensure_initialized` distinguishes them. -/
inductive ClassKind where
  | instanceKind
  | interfaceKind
  | otherKind
  deriving DecidableEq, Repr

/-- What `ensure_initialized` consults about a class: its variant, its
superclass id, its merged `interfaces` set (iterated as a list) and whether
it declares a `<clinit>`. -/
structure ClassInfo where
  kind : ClassKind
  superId : Option Nat
  interfaces : List Nat
  hasClinit : Bool

/-- The init states of all classes, by class id. -/
abbrev InitStates := Nat → ClassState

/-- One `state.store(...)` on a class's atomic init state. -/
def setState (st : InitStates) (c : Nat) (s : ClassState) : InitStates :=
  fun x => if x = c then s else st x

/-- `Interpreter::interface_needs_initialization`: the id must resolve to
an interface (`get_interface_class` errors otherwise), which needs
initialization iff it declares a `<clinit>`. -/
def interfaceNeedsInit (table : Nat → Option ClassInfo) (i : Nat) :
    Option Bool :=
  match table i with
  | some info => if info.kind = .interfaceKind then some info.hasClinit else none
  | none => none

/-- The two mutually recursive tasks inside `ensure_initialized`:
initializing one (optional) class, and walking an interface list.  A single
structurally fuel-indexed function keeps the embedding computable. -/
inductive InitCall where
  | cls (c : Option Nat)
  | ifaces (is : List Nat)

/-- The recursion engine of `Interpreter::ensure_initialized`.
`.cls none` returns immediately; a class in state Initialized or
Initializing returns immediately; otherwise the state is stored as
Initializing, the superclass is ensured (instance classes), then every
interface in the `interfaces` set that `interface_needs_initialization`
approves, then the class's own `<clinit>` runs if present
(`run_clinit_if_exists` — the trace event), and finally the state is
stored as Initialized.  `.ifaces` walks the interface list in order. -/
def ensureGo (table : Nat → Option ClassInfo) :
    Nat → InitStates → InitCall → Option (InitStates × List Nat)
  | 0, _, _ => none
  | _ + 1, st, .cls none => some (st, [])
  | fuel + 1, st, .cls (some cid) =>
    match table cid with
    | none => none
    | some info =>
      if st cid = .initialized ∨ st cid = .initializing then some (st, [])
      else
        match info.kind with
        | .instanceKind =>
          (ensureGo table fuel (setState st cid .initializing)
              (.cls info.superId)).bind fun p2 =>
          (ensureGo table fuel p2.1 (.ifaces info.interfaces)).bind fun p3 =>
          some (setState p3.1 cid .initialized,
            p2.2 ++ p3.2 ++ (if info.hasClinit then [cid] else []))
        | .interfaceKind =>
          (ensureGo table fuel (setState st cid .initializing)
              (.ifaces info.interfaces)).bind fun p3 =>
          some (setState p3.1 cid .initialized,
            p3.2 ++ (if info.hasClinit then [cid] else []))
        | .otherKind =>
          some (setState (setState st cid .initializing) cid .initialized, [])
  | _ + 1, st, .ifaces [] => some (st, [])
  | fuel + 1, st, .ifaces (i :: is) =>
    match interfaceNeedsInit table i with
    | none => none
    | some true =>
      (ensureGo table fuel st (.cls (some i))).bind fun p2 =>
      (ensureGo table fuel p2.1 (.ifaces is)).bind fun p3 =>
      some (p3.1, p2.2 ++ p3.2)
    | some false => ensureGo table fuel st (.ifaces is)

/-- `Interpreter::ensure_initialized`. -/
def ensureInit (fuel : Nat) (table : Nat → Option ClassInfo)
    (st : InitStates) (c : Option Nat) : Option (InitStates × List Nat) :=
  ensureGo table fuel st (.cls c)

/-- The interface loop of `ensure_initialized`. -/
def ensureInterfaces (fuel : Nat) (table : Nat → Option ClassInfo)
    (st : InitStates) (is : List Nat) : Option (InitStates × List Nat) :=
  ensureGo table fuel st (.ifaces is)

/-- **C3.** `ensure_initialized` returns immediately — invoking no
`<clinit>` and leaving every state unchanged — when the class's state is
already Initialized or Initializing (so a recursive entry from the same
thread does not re-enter the initializer); for a fresh instance class the
`<clinit>` trace is exactly: the superclass's initialization trace, then
the traces of the interfaces in the `interfaces` set that need
initialization (an interface needs it iff it declares a `<clinit>`; the
others are skipped), and the class's own `<clinit>` strictly last, after
which the class's state is Initialized. -/
theorem claim_C3_clinit_order :
    (∀ (table : Nat → Option ClassInfo) (st : InitStates) (fuel cid : Nat)
      (info : ClassInfo), table cid = some info →
      (st cid = .initialized ∨ st cid = .initializing) →
      ensureInit (fuel + 1) table st (some cid) = some (st, [])) ∧
    (∀ (table : Nat → Option ClassInfo) (st : InitStates) (fuel cid : Nat)
      (info : ClassInfo) (st' : InitStates) (tr : List Nat),
      table cid = some info →
      info.kind = .instanceKind →
      ¬(st cid = .initialized ∨ st cid = .initializing) →
      ensureInit (fuel + 1) table st (some cid) = some (st', tr) →
      ∃ st2 tr1 st3 tr2,
        ensureInit fuel table (setState st cid .initializing) info.superId
          = some (st2, tr1) ∧
        ensureInterfaces fuel table st2 info.interfaces = some (st3, tr2) ∧
        tr = tr1 ++ tr2 ++ (if info.hasClinit then [cid] else []) ∧
        st' = setState st3 cid .initialized ∧
        st' cid = .initialized) ∧
    (∀ (table : Nat → Option ClassInfo) (st : InitStates) (fuel i : Nat)
      (is : List Nat),
      interfaceNeedsInit table i = some false →
      ensureInterfaces (fuel + 1) table st (i :: is)
        = ensureInterfaces fuel table st is) := by
  refine ⟨?_, ?_, ?_⟩
  · intro table st fuel cid info htable hst
    simp only [ensureInit, ensureGo, htable, if_pos hst]
  · intro table st fuel cid info st' tr htable hkind hst hrun
    simp only [ensureInit, ensureGo, htable, hkind, hst, if_false,
      ensureInterfaces] at hrun ⊢
    rcases h1 : ensureGo table fuel (setState st cid .initializing)
        (.cls info.superId) with _ | ⟨st2, tr1⟩
    · rw [h1, Option.none_bind] at hrun
      exact absurd hrun (by simp)
    · rw [h1, Option.some_bind] at hrun
      rcases h2 : ensureGo table fuel st2 (.ifaces info.interfaces)
          with _ | ⟨st3, tr2⟩
      · rw [h2, Option.none_bind] at hrun
        exact absurd hrun (by simp)
      · rw [h2, Option.some_bind] at hrun
        simp only [Option.some.injEq, Prod.mk.injEq] at hrun
        obtain ⟨hst', htr⟩ := hrun
        refine ⟨st2, tr1, st3, tr2, rfl, h2, htr.symm, hst'.symm, ?_⟩
        rw [← hst']
        simp [setState]
  · intro table st fuel i is hskip
    simp only [ensureInterfaces, ensureGo, hskip]

/-- Witness for C3 on a concrete three-class hierarchy — instance class 1
(no super, has `<clinit>`), interface 2 (has `<clinit>`), instance class 3
(super 1, implements 2, has `<clinit>`), plus interface 4 without a
`<clinit>`: a class already Initializing returns unchanged with no
`<clinit>`; a fresh initialization of class 3 decomposes into super trace
`[1]`, interface trace `[2]`, own `<clinit>` `[3]` last, ending
Initialized; an interface without `<clinit>` is skipped. -/
theorem claim_C3_clinit_order_witness :
    ensureInit 5 (fun c =>
        if c = 1 then some ⟨.instanceKind, none, [], true⟩
        else if c = 2 then some ⟨.interfaceKind, none, [], true⟩
        else if c = 3 then some ⟨.instanceKind, some 1, [2], true⟩
        else if c = 4 then some ⟨.interfaceKind, none, [], false⟩
        else none)
      (fun _ => .initializing) (some 3)
      = some ((fun _ => .initializing), []) ∧
    (∃ st2 tr1 st3 tr2,
      ensureInit 4 (fun c =>
          if c = 1 then some ⟨.instanceKind, none, [], true⟩
          else if c = 2 then some ⟨.interfaceKind, none, [], true⟩
          else if c = 3 then some ⟨.instanceKind, some 1, [2], true⟩
          else if c = 4 then some ⟨.interfaceKind, none, [], false⟩
          else none)
        (setState (fun _ => .linked) 3 .initializing) (some 1)
        = some (st2, tr1) ∧
      ensureInterfaces 4 (fun c =>
          if c = 1 then some ⟨.instanceKind, none, [], true⟩
          else if c = 2 then some ⟨.interfaceKind, none, [], true⟩
          else if c = 3 then some ⟨.instanceKind, some 1, [2], true⟩
          else if c = 4 then some ⟨.interfaceKind, none, [], false⟩
          else none) st2 [2] = some (st3, tr2) ∧
      ([1, 2, 3] : List Nat) = tr1 ++ tr2 ++ (if true then [3] else []) ∧
      (setState (setState (setState (setState (setState (setState
          (fun _ => ClassState.linked) 3 .initializing) 1 .initializing)
          1 .initialized) 2 .initializing) 2 .initialized) 3 .initialized)
        = setState st3 3 .initialized ∧
      (setState (setState (setState (setState (setState (setState
          (fun _ => ClassState.linked) 3 .initializing) 1 .initializing)
          1 .initialized) 2 .initializing) 2 .initialized) 3 .initialized) 3
        = .initialized) ∧
    ensureInterfaces 5 (fun c =>
        if c = 1 then some ⟨.instanceKind, none, [], true⟩
        else if c = 2 then some ⟨.interfaceKind, none, [], true⟩
        else if c = 3 then some ⟨.instanceKind, some 1, [2], true⟩
        else if c = 4 then some ⟨.interfaceKind, none, [], false⟩
        else none)
      (fun _ => .linked) [4]
      = ensureInterfaces 4 (fun c =>
          if c = 1 then some ⟨.instanceKind, none, [], true⟩
          else if c = 2 then some ⟨.interfaceKind, none, [], true⟩
          else if c = 3 then some ⟨.instanceKind, some 1, [2], true⟩
          else if c = 4 then some ⟨.interfaceKind, none, [], false⟩
          else none)
        (fun _ => .linked) [] :=
  ⟨claim_C3_clinit_order.1 _ _ 4 3 ⟨.instanceKind, some 1, [2], true⟩
      rfl (Or.inr rfl),
   claim_C3_clinit_order.2.1 _ (fun _ => .linked) 4 3
      ⟨.instanceKind, some 1, [2], true⟩ _ [1, 2, 3] rfl rfl (by simp) rfl,
   claim_C3_clinit_order.2.2 _ (fun _ => .linked) 4 4 [] rfl⟩

/-! ## Claim C6: compact string encoding
(src/runtime/src/heap/mod.rs, `alloc_string_from_str_with_char_mapping` with
no char mapper, and `get_rust_string_from_java_string`)

A host string is embedded as its list of Unicode scalar values (Rust
`char`s).  `copy_nonoverlapping` of `u16` code units is little-endian on
the targets the source supports, matching §6.4. -/

/-- A Rust `char`: a Unicode scalar value (not a surrogate, below
`0x110000`). -/
def isScalar (c : Nat) : Prop := c < 0xD800 ∨ (0xE000 ≤ c ∧ c < 0x110000)

instance (c : Nat) : Decidable (isScalar c) := by
  unfold isScalar
  infer_instance

/-- `str::is_ascii`: every code point below `0x80`. -/
def isAsciiStr (s : List Nat) : Bool := s.all (fun c => decide (c < 0x80))

/-- `Heap::can_encode_latin1`: every code point at most `0xFF`. -/
def canEncodeLatin1 (s : List Nat) : Bool := s.all (fun c => decide (c ≤ 0xFF))

/-- `char::encode_utf16` for one scalar: a single code unit below
`0x10000`, else a surrogate pair. -/
def encodeUtf16Char (c : Nat) : List Nat :=
  if c < 0x10000 then [c]
  else [0xD800 + (c - 0x10000) / 0x400, 0xDC00 + (c - 0x10000) % 0x400]

/-- `str::encode_utf16`: code units of all chars in order. -/
def encodeUtf16 (s : List Nat) : List Nat := s.flatMap encodeUtf16Char

/-- `char::decode_utf16` + `String::from_utf16_lossy`: pair a high
surrogate with a following low surrogate; replace a lone surrogate with
U+FFFD (the lossy replacement; never reached on well-formed input). -/
def decodeUtf16Lossy : List Nat → List Nat
  | [] => []
  | [u] => if 0xD800 ≤ u ∧ u < 0xE000 then [0xFFFD] else [u]
  | u :: v :: rest =>
    if 0xD800 ≤ u ∧ u < 0xDC00 then
      if 0xDC00 ≤ v ∧ v < 0xE000 then
        (0x10000 + (u - 0xD800) * 0x400 + (v - 0xDC00))
          :: decodeUtf16Lossy rest
      else 0xFFFD :: decodeUtf16Lossy (v :: rest)
    else if 0xDC00 ≤ u ∧ u < 0xE000 then 0xFFFD :: decodeUtf16Lossy (v :: rest)
    else u :: decodeUtf16Lossy (v :: rest)

/-- `u16` code units laid out as little-endian byte pairs
(`copy_nonoverlapping` of the unit buffer into the byte array). -/
def utf16UnitsToBytes (units : List Nat) : List Nat :=
  units.flatMap (natToLE 2)

/-- `chunks_exact(2)` + `u16::from_le_bytes`: reassemble little-endian
byte pairs into code units. -/
def bytesToUtf16 : List Nat → List Nat
  | b0 :: b1 :: rest => (b0 % 256 + 256 * (b1 % 256)) :: bytesToUtf16 rest
  | _ => []

/-! ### Pure round-trip lemmas for the UTF-16 encoding -/

theorem decodeUtf16Lossy_cons_plain (u : Nat) (rest : List Nat)
    (h : ¬(0xD800 ≤ u ∧ u < 0xE000)) :
    decodeUtf16Lossy (u :: rest) = u :: decodeUtf16Lossy rest := by
  cases rest with
  | nil =>
    simp only [decodeUtf16Lossy]
    rw [if_neg h]
  | cons v rest2 =>
    simp only [decodeUtf16Lossy]
    rw [if_neg (by omega), if_neg (by omega)]

theorem decodeUtf16Lossy_cons_pair (u v : Nat) (rest : List Nat)
    (hu : 0xD800 ≤ u ∧ u < 0xDC00) (hv : 0xDC00 ≤ v ∧ v < 0xE000) :
    decodeUtf16Lossy (u :: v :: rest)
      = (0x10000 + (u - 0xD800) * 0x400 + (v - 0xDC00))
          :: decodeUtf16Lossy rest := by
  simp only [decodeUtf16Lossy]
  rw [if_pos hu, if_pos hv]

theorem encodeUtf16Char_units_lt (c : Nat) (hc : isScalar c) :
    ∀ u ∈ encodeUtf16Char c, u < 65536 := by
  intro u hu
  unfold encodeUtf16Char at hu
  rcases hc with hc | hc
  · rw [if_pos (by omega)] at hu
    simp only [List.mem_singleton] at hu
    omega
  · by_cases hsmall : c < 0x10000
    · rw [if_pos hsmall] at hu
      simp only [List.mem_singleton] at hu
      omega
    · rw [if_neg hsmall] at hu
      simp only [List.mem_cons, List.mem_singleton] at hu
      rcases hu with hu | hu | hu
      · have : (c - 0x10000) / 0x400 < 0x400 := by omega
        omega
      · have : (c - 0x10000) % 0x400 < 0x400 := Nat.mod_lt _ (by omega)
        omega
      · cases hu

theorem encodeUtf16_units_lt (s : List Nat) (hs : ∀ c ∈ s, isScalar c) :
    ∀ u ∈ encodeUtf16 s, u < 65536 := by
  intro u hu
  unfold encodeUtf16 at hu
  rw [List.mem_flatMap] at hu
  obtain ⟨c, hc, hu⟩ := hu
  exact encodeUtf16Char_units_lt c (hs c hc) u hu

theorem bytesToUtf16_utf16UnitsToBytes (units : List Nat)
    (h : ∀ u ∈ units, u < 65536) :
    bytesToUtf16 (utf16UnitsToBytes units) = units := by
  induction units with
  | nil => rfl
  | cons u us ih =>
    have hu : u < 65536 := h u (List.mem_cons_self u us)
    have hrest := ih (fun v hv => h v (List.mem_cons_of_mem u hv))
    simp only [utf16UnitsToBytes, List.flatMap_cons] at hrest ⊢
    simp only [natToLE, List.cons_append, List.nil_append, bytesToUtf16]
    rw [List.cons.injEq]
    refine ⟨?_, hrest⟩
    have h1 : u % 256 % 256 = u % 256 := Nat.mod_mod_of_dvd u (dvd_refl 256)
    have h2 : u / 256 % 256 = u / 256 := Nat.mod_eq_of_lt (by omega)
    omega

theorem decodeUtf16Lossy_encodeUtf16 (s : List Nat)
    (hs : ∀ c ∈ s, isScalar c) :
    decodeUtf16Lossy (encodeUtf16 s) = s := by
  induction s with
  | nil => rfl
  | cons c cs ih =>
    have hc := hs c (List.mem_cons_self c cs)
    have hrest := ih (fun d hd => hs d (List.mem_cons_of_mem c hd))
    simp only [encodeUtf16, List.flatMap_cons] at hrest ⊢
    by_cases hsmall : c < 0x10000
    · rw [show encodeUtf16Char c = [c] by
        unfold encodeUtf16Char
        rw [if_pos hsmall]]
      simp only [List.cons_append, List.nil_append]
      have hns : ¬(0xD800 ≤ c ∧ c < 0xE000) := by
        rcases hc with hc | hc <;> omega
      rw [decodeUtf16Lossy_cons_plain c _ hns, hrest]
    · have hbig : 0x10000 ≤ c ∧ c < 0x110000 := by
        rcases hc with hc | hc <;> omega
      have hdivlt : (c - 0x10000) / 0x400 < 0x400 := by omega
      have hmodlt : (c - 0x10000) % 0x400 < 0x400 := Nat.mod_lt _ (by omega)
      rw [show encodeUtf16Char c
          = [0xD800 + (c - 0x10000) / 0x400, 0xDC00 + (c - 0x10000) % 0x400] by
        unfold encodeUtf16Char
        rw [if_neg hsmall]]
      simp only [List.cons_append, List.nil_append]
      rw [decodeUtf16Lossy_cons_pair _ _ _ (by omega) (by omega), hrest]
      rw [List.cons.injEq]
      refine ⟨?_, rfl⟩
      have := Nat.div_add_mod (c - 0x10000) 0x400
      omega

theorem utf16UnitsToBytes_length (units : List Nat) :
    (utf16UnitsToBytes units).length = 2 * units.length := by
  induction units with
  | nil => rfl
  | cons u us ih =>
    have h2 : (natToLE 2 u).length = 2 := natToLE_length 2 u
    simp only [utf16UnitsToBytes, List.flatMap_cons, List.length_append,
      List.length_cons] at ih ⊢
    omega

theorem utf16UnitsToBytes_lt (units : List Nat) :
    ∀ b ∈ utf16UnitsToBytes units, b < 256 := by
  intro b hb
  unfold utf16UnitsToBytes at hb
  rw [List.mem_flatMap] at hb
  obtain ⟨u, _, hb⟩ := hb
  exact natToLE_lt 2 u b hb

/-- The byte-array payload and coder `alloc_string_from_str` (no char
mapper) chooses: the ASCII fast path copies the UTF-8 bytes (equal to the
code points for ASCII), the general LATIN1 path stores one byte per char
(`c as i8`), and otherwise UTF-16 little-endian pairs are stored. -/
def encodeStringPath (s : List Nat) : List Nat × Int :=
  if isAsciiStr s then (s, coderLATIN1)
  else if canEncodeLatin1 s then (s, coderLATIN1)
  else (utf16UnitsToBytes (encodeUtf16 s), coderUTF16)

/-- Rust's `usize as i32` cast: truncate to 32 bits, reinterpret signed. -/
def i32cast (n : Nat) : Int := toSigned 32 (n % 2 ^ 32)

/-- `alloc_ascii_byte_array_internal` / `alloc_latin1_byte_array_internal`
/ `alloc_utf16_byte_array_internal`, common shape: allocate a byte array
of the payload's length (cast `as i32`) and copy the payload over its
zeroed elements. -/
def allocByteArrayWithContent (h : Heap) (bytes : List Nat) :
    Except JvmError Nat × Heap :=
  match allocArrayInternal h h.byteArrayClassId
      (i32cast bytes.length) .byte with
  | (.error e, h1) => (.error e, h1)
  | (.ok arrRef, h1) =>
    (.ok arrRef,
     { h1 with
        mem := writeBytes h1.mem (arrRef + objectHeaderSize + arrayElementsOffset) bytes })

/-- `Heap::alloc_string_from_str_with_char_mapping(s, None)` (the
`alloc_string` entry point): allocate the payload byte array with the
chosen coder, then the String instance, write the `byte[] value` reference
at field offset 0 and the coder byte at field offset 8 (one reference
width). -/
def allocStringFromStr (h : Heap) (s : List Nat) :
    Except JvmError Nat × Heap :=
  match allocByteArrayWithContent h (encodeStringPath s).1 with
  | (.error e, h1) => (.error e, h1)
  | (.ok byteArrayRef, h1) =>
    match allocInstance h1 h1.stringInstanceSize h1.stringClassId with
    | (.error e, h2) => (.error e, h2)
    | (.ok stringInstance, h2) =>
      match writeField h2 stringInstance 0 (.ref byteArrayRef) .reference with
      | .error e => (.error e, h2)
      | .ok h3 =>
        match writeField h3 stringInstance AllocationType.reference.byteSize
            (.integer (encodeStringPath s).2) .byte with
        | .error e => (.error e, h3)
        | .ok h4 => (.ok stringInstance, h4)

/-- `Heap::get_array_length`: the `i32` at data offset 0. -/
def getArrayLength (h : Heap) (heapRef : Nat) : Int :=
  toSigned 32 (leToNat (readBytes h.mem (heapRef + objectHeaderSize) 4))

/-- `Heap::get_allocation_type`: decode the tag byte at data offset 4. -/
def getAllocationType (h : Heap) (heapRef : Nat) :
    Except JvmError AllocationType :=
  match tagToAllocationType
      (h.mem (heapRef + objectHeaderSize + arrayTypeOffset)) with
  | some t => .ok t
  | none => .error (.todo "Invalid allocation type")

/-- `Heap::get_byte_array_slice`: requires a byte array; the elements view
of `length` bytes starting at the elements offset. -/
def getByteArraySlice (h : Heap) (heapRef : Nat) :
    Except JvmError (List Nat) :=
  match getAllocationType h heapRef with
  | .error e => .error e
  | .ok t =>
    if t ≠ .byte then .error (.todo "Not a byte array")
    else .ok (readBytes h.mem
      (heapRef + objectHeaderSize + arrayElementsOffset)
      (getArrayLength h heapRef).toNat)

/-- `Heap::get_rust_string_from_java_string`: read the `byte[] value`
field (offset 0) and the coder (offset 8), then decode LATIN1 (each byte
is the code point) or UTF-16 (little-endian pairs, lossy decode; an odd
byte count is rejected first). -/
def getRustStringFromJavaString (h : Heap) (strRef : Nat) :
    Except JvmError (List Nat) :=
  match readField h strRef 0 .reference with
  | .ref byteArrayRef =>
    match readField h strRef 8 .byte with
    | .integer coder =>
      match getByteArraySlice h byteArrayRef with
      | .error e => .error e
      | .ok byteSlice =>
        if coder = coderLATIN1 then .ok byteSlice
        else if coder = coderUTF16 then
          if byteSlice.length % 2 ≠ 0 then
            .error (.todo "Invalid UTF-16 byte array (odd length)")
          else .ok (decodeUtf16Lossy (bytesToUtf16 byteSlice))
        else .error (.todo "Unknown String coder")
    | _ => .error (.todo "String.coder is not a byte")
  | .null => .error (.todo "String.value is null")
  | _ => .error (.todo "String.value is not a reference")

/-! ### Helper lemmas for the string round trip -/

theorem map_mod_of_lt (bs : List Nat) (h : ∀ b ∈ bs, b < 256) :
    bs.map (· % 256) = bs := by
  induction bs with
  | nil => rfl
  | cons b bs ih =>
    simp only [List.map_cons, List.cons.injEq]
    exact ⟨Nat.mod_eq_of_lt (h b (List.mem_cons_self b bs)),
      ih (fun x hx => h x (List.mem_cons_of_mem b hx))⟩

theorem le_align8 (n : Nat) : n ≤ align8 n := by
  unfold align8
  omega

theorem encodeUtf16_length_le (s : List Nat) :
    (encodeUtf16 s).length ≤ 2 * s.length := by
  induction s with
  | nil => simp [encodeUtf16]
  | cons c cs ih =>
    simp only [encodeUtf16, List.flatMap_cons, List.length_append,
      List.length_cons] at ih ⊢
    have hc : (encodeUtf16Char c).length ≤ 2 := by
      unfold encodeUtf16Char
      split <;> simp
    omega

theorem isAscii_canEncodeLatin1 (s : List Nat) (h : isAsciiStr s = true) :
    canEncodeLatin1 s = true := by
  simp only [isAsciiStr, List.all_eq_true, decide_eq_true_eq] at h
  simp only [canEncodeLatin1, List.all_eq_true, decide_eq_true_eq]
  intro c hc
  exact Nat.le_of_lt (Nat.lt_of_lt_of_le (h c hc) (by norm_num))

theorem encodeStringPath_latin1 (s : List Nat)
    (h : canEncodeLatin1 s = true) :
    encodeStringPath s = (s, coderLATIN1) := by
  unfold encodeStringPath
  by_cases ha : isAsciiStr s
  · rw [if_pos ha]
  · rw [if_neg ha, if_pos h]

theorem encodeStringPath_utf16 (s : List Nat)
    (h : canEncodeLatin1 s = false) :
    encodeStringPath s = (utf16UnitsToBytes (encodeUtf16 s), coderUTF16) := by
  unfold encodeStringPath
  have ha : isAsciiStr s = false := by
    by_contra hcontra
    rw [isAscii_canEncodeLatin1 s (by simpa using hcontra)] at h
    cases h
  rw [if_neg (by simp [ha]), if_neg (by simp [h])]

theorem encodeStringPath_bytes_lt (s : List Nat) :
    ∀ b ∈ (encodeStringPath s).1, b < 256 := by
  by_cases h : canEncodeLatin1 s
  · rw [encodeStringPath_latin1 s h]
    simp only [canEncodeLatin1, List.all_eq_true, decide_eq_true_eq] at h
    intro b hb
    exact Nat.lt_of_le_of_lt (h b hb) (by norm_num)
  · rw [encodeStringPath_utf16 s (by simpa using h)]
    exact utf16UnitsToBytes_lt _

theorem encodeStringPath_length_le (s : List Nat) :
    (encodeStringPath s).1.length ≤ 4 * s.length := by
  by_cases h : canEncodeLatin1 s
  · rw [encodeStringPath_latin1 s h]
    show s.length ≤ 4 * s.length
    omega
  · rw [encodeStringPath_utf16 s (by simpa using h)]
    show (utf16UnitsToBytes (encodeUtf16 s)).length ≤ 4 * s.length
    have h1 := utf16UnitsToBytes_length (encodeUtf16 s)
    have h2 := encodeUtf16_length_le s
    omega

theorem i32cast_ofNat (n : Nat) (h : n < 2 ^ 31) :
    i32cast n = Int.ofNat n := by
  unfold i32cast toSigned
  rw [if_pos (show n % 2 ^ 32 < 2 ^ (32 - 1) by norm_num; omega),
    Nat.mod_eq_of_lt (show n < 2 ^ 32 by omega)]
  rfl

theorem truncNat_32_ofNat (n : Nat) (h : n < 2 ^ 32) :
    truncNat 32 (Int.ofNat n) = n := by
  unfold truncNat
  have h32 : ((2 ^ 32 : Nat) : Int) = 4294967296 := by norm_num
  rw [Int.ofNat_eq_natCast, h32]
  omega

theorem toSigned_32_ofNat (n : Nat) (h : n < 2 ^ 31) :
    toSigned 32 n = (n : Int) := by
  unfold toSigned
  rw [if_pos (by norm_num at h ⊢; omega)]

theorem writeByte_out (m : Mem) (a v x : Nat) (h : x ≠ a) :
    writeByte m a v x = m x := by
  simp [writeByte, h]

theorem writeHeader_out (m : Mem) (r size cid : Nat) (flag : Bool) (x : Nat)
    (h : x < r ∨ r + 10 ≤ x) : writeHeader m r size cid flag x = m x := by
  unfold writeHeader
  rw [writeByte_out _ _ _ _ (by omega), writeByte_out _ _ _ _ (by omega),
    writeBytes_out _ _ _ _ (by simp only [natToLE_length]; omega),
    writeBytes_out _ _ _ _ (by simp only [natToLE_length]; omega)]

theorem readBytes_writeHeader_disjoint (m : Mem) (r size cid : Nat)
    (flag : Bool) (c n : Nat) (h : c + n ≤ r ∨ r + 10 ≤ c) :
    readBytes (writeHeader m r size cid flag) c n = readBytes m c n := by
  apply readBytes_congr
  intro x hx1 hx2
  exact writeHeader_out _ _ _ _ _ _ (by omega)

/-- Evaluation of `alloc_array_internal` for a byte array of a fitted,
`i32`-sized length. -/
theorem allocArrayInternal_byte_spec (h : Heap) (cid blen : Nat)
    (hb : blen < 2 ^ 31)
    (hcap : h.allocated
      + align8 (objectHeaderSize + (arrayElementsOffset + blen))
      ≤ h.capacity) :
    allocArrayInternal h cid (Int.ofNat blen) .byte
      = (.ok h.allocated,
         { h with
            allocated := h.allocated
              + align8 (objectHeaderSize + (arrayElementsOffset + blen)),
            mem := writeByte
              (writeBytes
                (writeHeader
                  (writeBytes h.mem (h.allocated + objectHeaderSize)
                    (List.replicate (arrayElementsOffset + blen) 0))
                  h.allocated
                  (objectHeaderSize + (arrayElementsOffset + blen)) cid true)
                (h.allocated + objectHeaderSize) (natToLE 4 blen))
              (h.allocated + objectHeaderSize + arrayTypeOffset)
              AllocationType.byte.tag }) := by
  unfold allocArrayInternal allocRaw
  rw [if_neg (by rw [Int.ofNat_eq_natCast]; omega : ¬Int.ofNat blen < 0),
    truncNat_32_ofNat blen (by omega)]
  simp only [show (Int.ofNat blen).toNat = blen from rfl,
    AllocationType.byteSize, Nat.mul_one]
  rw [if_neg (by omega)]

/-- Evaluation of `alloc_instance` when the block fits. -/
theorem allocInstance_spec (h : Heap) (size cid : Nat)
    (hcap : h.allocated + align8 (objectHeaderSize + size) ≤ h.capacity) :
    allocInstance h size cid
      = (.ok h.allocated,
         { h with
            allocated := h.allocated + align8 (objectHeaderSize + size),
            mem := writeHeader
              (writeBytes h.mem (h.allocated + objectHeaderSize)
                (List.replicate size 0))
              h.allocated (objectHeaderSize + size) cid false }) := by
  unfold allocInstance allocRaw
  rw [if_neg (by omega)]

/-- Full evaluation of `alloc_string_from_str` on a heap with room for the
payload byte array and the String instance: the byte array is laid out at
the old bump pointer, the String instance right behind it, the `byte[]`
reference and coder in the String's first two fields. -/
theorem allocStringFromStr_spec (h : Heap) (s : List Nat)
    (hb : (encodeStringPath s).1.length < 2 ^ 31)
    (hcap : h.allocated + align8 (objectHeaderSize + (arrayElementsOffset + (encodeStringPath s).1.length))
      + align8 (objectHeaderSize + h.stringInstanceSize) ≤ h.capacity) :
    allocStringFromStr h s
      = (.ok (h.allocated + align8 (objectHeaderSize + (arrayElementsOffset + (encodeStringPath s).1.length))),
         { h with
            allocated := h.allocated + align8 (objectHeaderSize + (arrayElementsOffset + (encodeStringPath s).1.length))
              + align8 (objectHeaderSize + h.stringInstanceSize),
            mem :=
              writeBytes
                (writeBytes
                  (writeHeader
                    (writeBytes
                      (writeBytes
                        (writeByte
                          (writeBytes
                            (writeHeader
                              (writeBytes h.mem
                                (h.allocated + objectHeaderSize)
                                (List.replicate
                                  (arrayElementsOffset + (encodeStringPath s).1.length) 0))
                              h.allocated
                              (objectHeaderSize + (arrayElementsOffset + (encodeStringPath s).1.length))
                              h.byteArrayClassId true)
                            (h.allocated + objectHeaderSize)
                            (natToLE 4 (encodeStringPath s).1.length))
                          (h.allocated + objectHeaderSize + arrayTypeOffset)
                          AllocationType.byte.tag)
                        (h.allocated + objectHeaderSize + arrayElementsOffset)
                        (encodeStringPath s).1)
                      (h.allocated + align8 (objectHeaderSize + (arrayElementsOffset + (encodeStringPath s).1.length)) + objectHeaderSize)
                      (List.replicate h.stringInstanceSize 0))
                    (h.allocated + align8 (objectHeaderSize + (arrayElementsOffset + (encodeStringPath s).1.length)))
                    (objectHeaderSize + h.stringInstanceSize)
                    h.stringClassId false)
                  (h.allocated + align8 (objectHeaderSize + (arrayElementsOffset + (encodeStringPath s).1.length)) + objectHeaderSize)
                  (natToLE 8 h.allocated))
                (h.allocated + align8 (objectHeaderSize + (arrayElementsOffset + (encodeStringPath s).1.length)) + objectHeaderSize + 8)
                (natToLE 1 (truncNat 8 (encodeStringPath s).2)) }) := by
  have hcap2 : (h.allocated + align8 (objectHeaderSize + (arrayElementsOffset + (encodeStringPath s).1.length)))
      + align8 (objectHeaderSize + h.stringInstanceSize) ≤ h.capacity := by
    omega
  unfold allocStringFromStr allocByteArrayWithContent
  rw [i32cast_ofNat _ hb]
  rw [allocArrayInternal_byte_spec h h.byteArrayClassId _ hb (by omega)]
  dsimp only
  rw [allocInstance_spec _ _ _ hcap2]
  dsimp only [writeField]
  simp only [Nat.add_zero, AllocationType.byteSize]

theorem toSigned_truncNat_8 (i : Int) (h1 : -(2 ^ 7) ≤ i) (h2 : i < 2 ^ 7) :
    toSigned 8 (truncNat 8 i) = i := by
  simp only [toSigned, truncNat]
  norm_num
  split <;> omega

theorem encodeStringPath_coder_cases (s : List Nat) :
    (encodeStringPath s).2 = coderLATIN1 ∨ (encodeStringPath s).2 = coderUTF16 := by
  by_cases hl : canEncodeLatin1 s
  · exact Or.inl (by rw [encodeStringPath_latin1 s hl])
  · exact Or.inr (by rw [encodeStringPath_utf16 s (by simpa using hl)])

/-- The selected coder is LATIN1 exactly when every code point fits in one
byte. -/
theorem encodeStringPath_coder_iff (s : List Nat) :
    ((encodeStringPath s).2 = coderLATIN1 ↔ ∀ c ∈ s, c ≤ 0xFF) := by
  by_cases hl : canEncodeLatin1 s
  · rw [encodeStringPath_latin1 s hl]
    have h2 : ∀ c ∈ s, c ≤ 0xFF := by
      simpa [canEncodeLatin1, List.all_eq_true] using hl
    exact ⟨fun _ => h2, fun _ => rfl⟩
  · rw [encodeStringPath_utf16 s (by simpa using hl)]
    have h2 : ¬ ∀ c ∈ s, c ≤ 0xFF := by
      simpa [canEncodeLatin1, List.all_eq_true] using hl
    constructor
    · intro hcontra
      exact absurd hcontra (by simp [coderUTF16, coderLATIN1])
    · intro hc
      exact absurd hc h2

/-- Decoding a String object whose `value` field resolves to a byte array
holding exactly the encoded payload and whose coder field holds the
selected coder recovers the original code points. -/
theorem getRustString_of_fields (h4 : Heap) (strRef arrRef : Nat)
    (s : List Nat) (hs : ∀ c ∈ s, isScalar c)
    (href : readField h4 strRef 0 .reference = .ref arrRef)
    (hcoder : readField h4 strRef 8 .byte = .integer (encodeStringPath s).2)
    (hslice : getByteArraySlice h4 arrRef = .ok (encodeStringPath s).1) :
    getRustStringFromJavaString h4 strRef = .ok s := by
  by_cases hl : canEncodeLatin1 s
  · rw [encodeStringPath_latin1 s hl] at hcoder hslice
    unfold getRustStringFromJavaString
    rw [href, hcoder]
    dsimp only
    rw [hslice]
    dsimp only
    rw [if_pos rfl]
  · rw [encodeStringPath_utf16 s (by simpa using hl)] at hcoder hslice
    unfold getRustStringFromJavaString
    rw [href, hcoder]
    dsimp only
    rw [hslice]
    dsimp only
    rw [if_neg (by norm_num [coderUTF16, coderLATIN1]),
      if_pos rfl,
      if_neg (show ¬ (utf16UnitsToBytes (encodeUtf16 s)).length % 2 ≠ 0 by
        rw [utf16UnitsToBytes_length]; omega),
      bytesToUtf16_utf16UnitsToBytes _ (encodeUtf16_units_lt s hs),
      decodeUtf16Lossy_encodeUtf16 s hs]

/-- **C6.** On a heap with room for both blocks, `alloc_string_from_str`
allocates a byte array holding the encoded payload and a String instance
whose coder field stores the selected coder — LATIN1 (0) exactly when
every code point of `s` is at most 0xFF, UTF-16 (1, little-endian
code-unit pairs) otherwise — and `get_rust_string_from_java_string`
decodes the allocated string back to exactly the code points of `s`, on
the LATIN1 path and on the UTF-16 path alike. -/
theorem claim_C6_string_round_trip (h : Heap) (s : List Nat)
    (hs : ∀ c ∈ s, isScalar c)
    (hpos : 0 < h.allocated)
    (hlen : 4 * s.length < 2 ^ 31)
    (hcap : h.allocated
        + align8 (objectHeaderSize
          + (arrayElementsOffset + (encodeStringPath s).1.length))
        + align8 (objectHeaderSize + h.stringInstanceSize) ≤ h.capacity)
    (hcap64 : h.capacity < 2 ^ 64) :
    ((encodeStringPath s).2 = coderLATIN1 ↔ ∀ c ∈ s, c ≤ 0xFF)
    ∧ ∃ strRef h4,
        allocStringFromStr h s = (.ok strRef, h4)
        ∧ readField h4 strRef 8 .byte = .integer (encodeStringPath s).2
        ∧ getRustStringFromJavaString h4 strRef = .ok s := by
  have hOHS : objectHeaderSize = 16 := rfl
  have hATO : arrayTypeOffset = 4 := rfl
  have hAEO : arrayElementsOffset = 8 := rfl
  have hb : (encodeStringPath s).1.length < 2 ^ 31 :=
    Nat.lt_of_le_of_lt (encodeStringPath_length_le s) hlen
  have halign1 := le_align8
    (objectHeaderSize + (arrayElementsOffset + (encodeStringPath s).1.length))
  have hA256 : h.allocated < 256 ^ 8 := by norm_num; omega
  have hspec := allocStringFromStr_spec h s hb hcap
  rcases e : allocStringFromStr h s with ⟨res, H4⟩
  have epair := e.symm.trans hspec
  rw [Prod.mk.injEq] at epair
  obtain ⟨eres, eH⟩ := epair
  have href : readField H4
      (h.allocated + align8 (objectHeaderSize
        + (arrayElementsOffset + (encodeStringPath s).1.length))) 0
      AllocationType.reference = .ref h.allocated := by
    rw [eH]
    unfold readField
    dsimp only
    simp only [Nat.add_zero]
    rw [readBytes_writeBytes_disjoint _ _ _ _ _ (Or.inl (by omega)),
      leToNat_after_write _ _ _ _ hA256,
      if_neg (show ¬ h.allocated = 0 by omega)]
  have hcoder : readField H4
      (h.allocated + align8 (objectHeaderSize
        + (arrayElementsOffset + (encodeStringPath s).1.length))) 8
      AllocationType.byte = .integer (encodeStringPath s).2 := by
    have hct := truncNat_lt 8 (encodeStringPath s).2
    have hcb : -(2 ^ 7) ≤ (encodeStringPath s).2
        ∧ (encodeStringPath s).2 < 2 ^ 7 := by
      rcases encodeStringPath_coder_cases s with hc | hc <;> rw [hc] <;>
        norm_num [coderLATIN1, coderUTF16]
    rw [eH]
    unfold readField
    dsimp only
    rw [leToNat_after_write _ _ _ _
        (show truncNat 8 (encodeStringPath s).2 < 256 ^ 1 by norm_num; omega),
      toSigned_truncNat_8 _ hcb.1 hcb.2]
  have htag : getAllocationType H4 h.allocated = .ok .byte := by
    rw [eH]
    unfold getAllocationType
    dsimp only
    rw [writeBytes_out _ _ _ _ (Or.inl (by omega)),
      writeBytes_out _ _ _ _ (Or.inl (by omega)),
      writeHeader_out _ _ _ _ _ _ (Or.inl (by omega)),
      writeBytes_out _ _ _ _ (Or.inl (by omega)),
      writeBytes_out _ _ _ _ (Or.inl (by omega))]
    dsimp only [writeByte]
    rw [if_pos rfl]
    rfl
  have harrlen : getArrayLength H4 h.allocated
      = ((encodeStringPath s).1.length : Int) := by
    rw [eH]
    unfold getArrayLength
    dsimp only
    rw [readBytes_writeBytes_disjoint _ _ _ _ _ (Or.inl (by omega)),
      readBytes_writeBytes_disjoint _ _ _ _ _ (Or.inl (by omega)),
      readBytes_writeHeader_disjoint _ _ _ _ _ _ _ (Or.inl (by omega)),
      readBytes_writeBytes_disjoint _ _ _ _ _ (Or.inl (by omega)),
      readBytes_writeBytes_disjoint _ _ _ _ _ (Or.inl (by omega)),
      readBytes_writeByte_disjoint _ _ _ _ _ (Or.inl (by omega)),
      leToNat_after_write _ _ _ _
        (show (encodeStringPath s).1.length < 256 ^ 4 by norm_num; omega),
      toSigned_32_ofNat _ hb]
  have hslice : getByteArraySlice H4 h.allocated
      = .ok (encodeStringPath s).1 := by
    unfold getByteArraySlice
    rw [htag]
    dsimp only
    rw [if_neg (show ¬ AllocationType.byte ≠ AllocationType.byte from
        fun hne => hne rfl),
      harrlen, Int.toNat_natCast, eH]
    dsimp only
    rw [readBytes_writeBytes_disjoint _ _ _ _ _ (Or.inl (by omega)),
      readBytes_writeBytes_disjoint _ _ _ _ _ (Or.inl (by omega)),
      readBytes_writeHeader_disjoint _ _ _ _ _ _ _ (Or.inl (by omega)),
      readBytes_writeBytes_disjoint _ _ _ _ _ (Or.inl (by omega)),
      readBytes_writeBytes,
      map_mod_of_lt _ (encodeStringPath_bytes_lt s)]
  refine ⟨encodeStringPath_coder_iff s,
    h.allocated + align8 (objectHeaderSize
      + (arrayElementsOffset + (encodeStringPath s).1.length)),
    H4, ?_, hcoder,
    getRustString_of_fields H4 _ h.allocated s hs href hcoder hslice⟩
  rw [eres]

/-- Witness for C6 at a concrete heap and the two-code-point string
"H☃" (0x48, 0x2603), which needs the UTF-16 coder. -/
theorem claim_C6_string_round_trip_witness :
    (∀ c ∈ ([0x48, 0x2603] : List Nat), isScalar c)
    ∧ (((encodeStringPath [0x48, 0x2603]).2 = coderLATIN1
          ↔ ∀ c ∈ ([0x48, 0x2603] : List Nat), c ≤ 0xFF)
      ∧ ∃ strRef h4,
          allocStringFromStr ⟨200, 16, fun _ => 0, 7, 9, 16⟩ [0x48, 0x2603]
            = (.ok strRef, h4)
          ∧ readField h4 strRef 8 .byte
              = .integer (encodeStringPath [0x48, 0x2603]).2
          ∧ getRustStringFromJavaString h4 strRef = .ok [0x48, 0x2603]) :=
  ⟨by decide,
   claim_C6_string_round_trip ⟨200, 16, fun _ => 0, 7, 9, 16⟩ [0x48, 0x2603]
     (by decide) (by decide) (by decide) (by decide) (by decide)⟩

end LagerthaVM
